import Mathlib

/-!
Verification development for the backup orchestrator `backup_tool.py`.

The file shallowly embeds the pieces of the program the claims are about:

* the size-string parser `parse_split_size` and the split stage of
  `make_archive`;
* the pure chunk splitter `do_python_split` (files as lists of bytes,
  byte values as `Nat`);
* the action trace of `make_archive` (archive / encrypt / split /
  checksum / summary), with the external world (installed commands,
  subprocess exit codes, file contents) given by an oracle structure;
* the upload dispatcher `do_upload_one` with its retry/backoff loop and
  the headless aggregation of per-file results into the final status;
* plugin resolution `_resolve_plugin` (here `resolve_plugin`), the
  per-target steps of `run_plugins`, and the environment the plugins get;
* the `KEY=VALUE` config-file loader and the double load performed by
  `main` followed by `apply_args`.

Strings are Lean `String`s (logically a list of characters, matching
Python's `str` for the ASCII data handled here); helper functions such as
`pyStrip` reimplement the exact Python primitives used by the source
(`str.strip`, `str.split('=', 1)`, ...).  Digit and whitespace classes are
modelled at the ASCII level (`Char.isDigit`, `Char.isWhitespace`); Python's
`\d` and `str.strip()` additionally accept non-ASCII Unicode digits and
whitespace, which no configuration string of this tool uses.  Subprocess exit codes, file
existence, file bytes and `input()` come from oracle structures `World`
and `FS`.  Shell commands are carried as their argument lists (the source
joins them with quoting before `subprocess.call(..., shell=True)`; the
quoting layer is irrelevant to every claim, so the trace keeps the
arguments themselves).
-/

namespace Backup

/-! ## Character and string helpers (Python primitives) -/

/-- Python `str.strip()` on the character list of a string. -/
def pyStrip (l : List Char) : List Char :=
  ((l.dropWhile Char.isWhitespace).reverse.dropWhile Char.isWhitespace).reverse

/-- Python `str.lstrip()`. -/
def pyLStrip (l : List Char) : List Char :=
  l.dropWhile Char.isWhitespace

/-- Python `str.strip(c)` for one character `c` (removes every leading and
trailing occurrence of `c`). -/
def stripChar (c : Char) (l : List Char) : List Char :=
  ((l.dropWhile (fun x => x == c)).reverse.dropWhile (fun x => x == c)).reverse

/-- Python `str.lower()` (ASCII data only in this program). -/
def pyLower (l : List Char) : List Char :=
  l.map Char.toLower

/-- Value of a list of decimal digit characters, most significant first
(what `int()` computes on a digit string). -/
def digitsVal (ds : List Char) : Nat :=
  ds.foldl (fun a c => a * 10 + (c.toNat - 48)) 0

/-- Decimal digit characters of `n`, most significant first (what Python's
`"%d"` renders). -/
def natDigits (n : Nat) : List Char :=
  if h : n < 10 then [Char.ofNat (48 + n)]
  else natDigits (n / 10) ++ [Char.ofNat (48 + n % 10)]
decreasing_by
  simp only [not_lt] at h
  exact Nat.div_lt_self (by omega) (by omega)

/-- Python `f"{n:03d}"`: the decimal digits of `n`, zero-padded on the left
to a minimum width of 3 (wider numbers are kept whole). -/
def fmt03 (n : Nat) : String :=
  String.mk (List.replicate (3 - (natDigits n).length) '0' ++ natDigits n)

/-- Python `os.path.basename` (POSIX). -/
def baseName (s : String) : String :=
  String.mk ((s.data.splitOn '/').getLastD [])

/-- Python `os.path.join(dir, name)` (POSIX). -/
def joinPath (dir name : String) : String :=
  if name.data.head? = some '/' then name
  else if dir = "" then name
  else if dir.data.getLast? = some '/' then dir ++ name
  else dir ++ "/" ++ name

/-! ## `parse_split_size` (source lines 125-142)

The source matches the stripped string against the regular expression
`^(\d+)([kKmMgG])$` and multiplies the numeral by the 1024-power of the
unit. -/

/-- The character class `[kKmMgG]` of the size regular expression. -/
def sizeUnitChar (c : Char) : Bool :=
  c == 'k' || c == 'K' || c == 'm' || c == 'M' || c == 'g' || c == 'G'

/-- Bytes denoted by a size unit character (1024-based, as in the source). -/
def unitMult (u : Char) : Nat :=
  if u.toLower = 'k' then 1024
  else if u.toLower = 'm' then 1024 * 1024
  else 1024 * 1024 * 1024

/-- `parse_split_size` from the source: `None` for a falsy argument, then a
full match of the stripped text against `^(\d+)([kKmMgG])$`, multiplying by
1024 / 1024² / 1024³ by unit. -/
def parse_split_size (s : String) : Option Nat :=
  if s = "" then none
  else
    let t := pyStrip s.data
    match t.getLast? with
    | none => none
    | some u =>
      let ds := t.dropLast
      if !ds.isEmpty && ds.all Char.isDigit && sizeUnitChar u then
        let n := digitsVal ds
        if u.toLower = 'k' then some (n * 1024)
        else if u.toLower = 'm' then some (n * 1024 * 1024)
        else some (n * 1024 * 1024 * 1024)
      else none

/-! ## `do_python_split` (source lines 228-241)

The source reads `chunk_bytes`-sized blocks from the input file until a
read returns the empty bytes object, writing block `idx` to the file named
`f"{prefix}{idx:03d}"`.  `do_python_split` below keeps the chunk contents;
`do_python_split_named` keeps the produced file names with them. -/

/-- The chunk contents produced by `do_python_split` on a file whose bytes
are `data`.  With `chunk = 0` Python's `read(0)` returns `b''` at once and
the loop writes nothing. -/
def do_python_split (chunk : Nat) (data : List Nat) : List (List Nat) :=
  if h : data = [] ∨ chunk = 0 then []
  else data.take chunk :: do_python_split chunk (data.drop chunk)
termination_by data.length
decreasing_by
  push_neg at h
  simp only [List.length_drop]
  have : data.length ≠ 0 := fun hz => h.1 (List.eq_nil_of_length_eq_zero hz)
  omega

/-- The `(file name, chunk contents)` pairs produced by `do_python_split`,
with the running index `idx` (the source starts it at 0). -/
def do_python_split_named (chunk : Nat) (pre : String) (data : List Nat) (idx : Nat) :
    List (String × List Nat) :=
  if h : data = [] ∨ chunk = 0 then []
  else (pre ++ fmt03 idx, data.take chunk) ::
    do_python_split_named chunk pre (data.drop chunk) (idx + 1)
termination_by data.length
decreasing_by
  push_neg at h
  simp only [List.length_drop]
  have : data.length ≠ 0 := fun hz => h.1 (List.eq_nil_of_length_eq_zero hz)
  omega

/-! ## Actions, configuration and the external world -/

/-- One observable effect of a run.  `log` covers `log()` output (console
plus append to the log file, the one mutation dry-run mode is allowed);
`run` is a subprocess invocation carried as its argument list; `readSize`
is the read-only `du -sh` size probe; `readInput` is an interactive
`input()` prompt. -/
inductive Action where
  | log (msg : String)
  | run (cmd : List String)
  | mkdir (dir : String)
  | writeFile (path : String)
  | removeFile (path : String)
  | readSize (path : String)
  | readInput (msg : String)
  | sleep (seconds : Nat)
deriving DecidableEq

/-- The effective settings of one run (module globals of the source after
configuration; `UPLOAD_RETRY` as the number `int(UPLOAD_RETRY or 3)` the
dispatcher computes). -/
structure Cfg where
  ARCHIVE_FORMAT : String := "zip"
  ZIP_AES : Bool := false
  USE_GPG : Bool := false
  SPLIT_SIZE : String := ""
  ZIP_ENCRYPT : Bool := false
  ZIP_PASSWORD : String := ""
  KEEP_AFTER_SPLIT : Bool := true
  RM_AFTER_SPLIT : Bool := false
  EXCLUDES : List String := []
  excludeFileLines : List String := []
  UPLOAD_TARGET : String := ""
  UPLOAD_TOOL : String := "auto"
  AFTER_UPLOAD_RM : Bool := false
  UPLOAD_RETRY : Nat := 3
  DRY_RUN : Bool := false
  MAKE_CHECKSUM : Bool := false
  MAKE_SUMMARY : Bool := false
  OUT_DIR : String := ""
  BASE : String := ""
  SUMMARY_DIR : String := ""
  CHECKSUM_DIR : String := ""
deriving DecidableEq

/-- Oracle for everything outside the process: which commands are
installed, subprocess exit codes, `du` output, file bytes and existence,
whether `os.remove` / the checksum write succeed, the `input()` answer and
the per-file per-attempt upload exit code. -/
structure World where
  cmdExists : String → Bool
  runRc : List String → Nat
  duOut : String → Option String
  fileBytes : String → List Nat
  removeOk : String → Bool
  chkOk : String → Bool
  inputPw : String
  uploadRc : String → Nat → Nat
  fileExists : String → Bool

/-- `run_or_echo` (source lines 113-123): in dry-run mode only log the
command and report exit code 0; otherwise run it, the exit code `rc`
supplied by the world oracle at the call site. -/
def run_or_echo (dry : Bool) (rc : Nat) (cmd : List String) : List Action × Nat :=
  if dry then ([Action.log ("DRY-RUN: " ++ String.intercalate " " cmd)], 0)
  else ([Action.run cmd], rc)

/-- `collect_exclude_patterns` (source lines 202-212): the inline patterns
followed by the stripped, non-blank, non-comment lines of the exclude
file. -/
def collect_exclude_patterns (cfg : Cfg) : List String :=
  cfg.EXCLUDES ++
    ((cfg.excludeFileLines.map (fun l => String.mk (pyStrip l.data))).filter
      (fun s => !(s == "") && !(s.data.head? == some '#')))

/-- `_build_zip_exclude_args` (source lines 215-218). -/
def build_zip_exclude_args (patterns : List String) : List String :=
  if patterns = [] then [] else "-x" :: patterns

/-- `_build_tar_exclude_args` (source lines 220-221). -/
def build_tar_exclude_args (patterns : List String) : List String :=
  patterns.map (fun p => "--exclude=" ++ p)

/-- Password arguments of the `7z` invocations (zip-AES and 7z branches):
an explicit password wins, else an interactive prompt when encryption was
requested, else nothing. -/
def sevenPwArgs (cfg : Cfg) (w : World) : List Action × List String :=
  if cfg.ZIP_PASSWORD ≠ "" then ([], ["-p" ++ cfg.ZIP_PASSWORD, "-mhe=on"])
  else if cfg.ZIP_ENCRYPT then
    ([Action.readInput "Password"], ["-p" ++ w.inputPw, "-mhe=on"])
  else ([], [])

/-- The archive-creation stage of `make_archive` (source lines 283-368):
one external archiver per format, fatal (`Except.error`) when the needed
tool is missing or the archiver exits nonzero; the post-archive integrity
checks (zip -T / gzip -t) are logged, never fatal.  Returns the archive
path. -/
def archive_stage (cfg : Cfg) (w : World) (paths : List String)
    (patterns : List String) : List Action × Except String String :=
  if cfg.ARCHIVE_FORMAT = "zip" then
    if cfg.ZIP_AES then
      if !w.cmdExists "7z" then ([], Except.error "butuh 7z untuk ZIP AES-256")
      else
        let tmp := cfg.OUT_DIR ++ "/" ++ cfg.BASE ++ ".zip"
        let pw := sevenPwArgs cfg w
        let args := ["7z", "a", "-tzip", "-mem=AES256", tmp] ++ pw.2 ++
          patterns.map (fun p => "-x!" ++ p) ++ paths
        let r := run_or_echo cfg.DRY_RUN (w.runRc args) args
        (pw.1 ++ r.1,
          if r.2 ≠ 0 then Except.error "Gagal membuat ZIP AES" else Except.ok tmp)
    else
      if !w.cmdExists "zip" then ([], Except.error "butuh zip")
      else
        let tmp := cfg.OUT_DIR ++ "/" ++ cfg.BASE ++ ".zip"
        let passArgs :=
          if cfg.ZIP_PASSWORD ≠ "" then ["-P", cfg.ZIP_PASSWORD]
          else if cfg.ZIP_ENCRYPT then ["-e"] else []
        let args := ["zip", "-r"] ++ passArgs ++ [tmp] ++ paths ++
          build_zip_exclude_args patterns
        if cfg.DRY_RUN then ((run_or_echo true 0 args).1, Except.ok tmp)
        else
          let rc := w.runRc args
          if rc ≠ 0 then ([Action.run args], Except.error "Gagal membuat ZIP")
          else
            let rcT := w.runRc ["zip", "-T", tmp]
            ([Action.run args, Action.run ["zip", "-T", tmp],
              Action.log (if rcT = 0 then "Verifikasi zip OK." else "ZIP corrupt!")],
              Except.ok tmp)
  else if cfg.ARCHIVE_FORMAT = "tgz" || cfg.ARCHIVE_FORMAT = "tar.gz" then
    if !w.cmdExists "tar" then ([], Except.error "butuh tar")
    else
      let tmp := cfg.OUT_DIR ++ "/" ++ cfg.BASE ++ ".tar.gz"
      let compressor := if w.cmdExists "pigz" then "pigz" else "gzip"
      let args := ["tar"] ++ build_tar_exclude_args patterns ++
        ["-cf", "-", "--"] ++ paths ++ ["|", compressor, ">", tmp]
      let r := run_or_echo cfg.DRY_RUN (w.runRc args) args
      if r.2 ≠ 0 then (r.1, Except.error "Gagal membuat TGZ")
      else
        let extra :=
          if !cfg.DRY_RUN && w.cmdExists "gzip" then
            Action.run ["gzip", "-t", tmp] ::
              (if w.runRc ["gzip", "-t", tmp] ≠ 0 then [Action.log "Gzip corrupt!"] else [])
          else []
        (r.1 ++ extra, Except.ok tmp)
  else if cfg.ARCHIVE_FORMAT = "tar" then
    if !w.cmdExists "tar" then ([], Except.error "butuh tar")
    else
      let tmp := cfg.OUT_DIR ++ "/" ++ cfg.BASE ++ ".tar"
      let args := ["tar"] ++ build_tar_exclude_args patterns ++
        ["-cf", tmp, "--"] ++ paths
      let r := run_or_echo cfg.DRY_RUN (w.runRc args) args
      (r.1, if r.2 ≠ 0 then Except.error "Gagal membuat TAR" else Except.ok tmp)
  else if cfg.ARCHIVE_FORMAT = "7z" then
    if !w.cmdExists "7z" then ([], Except.error "butuh 7z")
    else
      let tmp := cfg.OUT_DIR ++ "/" ++ cfg.BASE ++ ".7z"
      let pw := sevenPwArgs cfg w
      let args := ["7z", "a", "-t7z", tmp] ++ pw.2 ++
        patterns.map (fun p => "-x!" ++ p) ++ paths
      let r := run_or_echo cfg.DRY_RUN (w.runRc args) args
      (pw.1 ++ r.1,
        if r.2 ≠ 0 then Except.error "Gagal membuat 7z" else Except.ok tmp)
  else ([], Except.error ("format tidak didukung: " ++ cfg.ARCHIVE_FORMAT))

/-- The GPG-encryption stage (source lines 370-377): only for tar-family
formats when requested; fatal on a nonzero exit.  Returns the primary
artifact path (`tmpfile + ".gpg"` after encryption, else `tmpfile`, as the
`primary_out` computation of line 381 selects). -/
def gpg_stage (cfg : Cfg) (w : World) (tmp : String) : List Action × Except String String :=
  if cfg.USE_GPG &&
      (cfg.ARCHIVE_FORMAT == "tgz" || cfg.ARCHIVE_FORMAT == "tar.gz" ||
        cfg.ARCHIVE_FORMAT == "tar") then
    if !w.cmdExists "gpg" then ([], Except.error "butuh gpg")
    else
      let enc := tmp ++ ".gpg"
      let args := ["gpg", "--symmetric", "--cipher-algo", "AES256", "--output", enc, tmp]
      let r := run_or_echo cfg.DRY_RUN (w.runRc args) args
      (r.1, if r.2 ≠ 0 then Except.error "Gagal enkripsi GPG" else Except.ok enc)
  else ([], Except.ok tmp)

/-- The split stage of `make_archive` (source lines 379-410): no threshold
or an unparseable / zero threshold keeps the unsplit artifact as the sole
upload candidate; in dry-run mode only the would-be command is logged; else
the chunks are written and the keep / remove-after-split policy decides
whether the unsplit artifact stays in the upload list (removal is
best-effort, `removeOk` tells whether `os.remove` succeeded).  Returns the
`files_to_upload` list. -/
def split_stage (splitSize : String) (dry keep rm removeOk : Bool)
    (bytes : List Nat) (primary : String) : List Action × List String :=
  if splitSize = "" then ([Action.log ("Arsip siap: " ++ primary)], [primary])
  else
    match parse_split_size splitSize with
    | none => ([Action.log "Nilai --split tidak valid, melewati split"], [primary])
    | some b =>
      if b = 0 then ([Action.log "Nilai --split tidak valid, melewati split"], [primary])
      else
        let pre := primary ++ ".part."
        let head := Action.log ("Split per " ++ splitSize ++ "...")
        if dry then
          ([head,
            Action.log ("DRY-RUN: (split " ++ splitSize ++ " " ++ primary ++ " " ++
              pre ++ "NNN)")], [primary])
        else
          let parts := (do_python_split_named b pre bytes 0).map Prod.fst
          let writes := parts.map Action.writeFile
          let tailLog :=
            Action.log ("Output parts: " ++ pre ++ "000, " ++ pre ++ "001, ...")
          if keep then
            (head :: writes ++
              [Action.log "Split sukses. Arsip utuh tetap disimpan.", tailLog],
              parts ++ [primary])
          else if rm then
            (head :: writes ++ Action.removeFile primary ::
              (if removeOk then [Action.log "Arsip utuh dihapus setelah split."] else []) ++
              [tailLog],
              parts)
          else
            (head :: writes ++ [tailLog], parts ++ [primary])

/-- The checksum stage (source lines 412-430): per-file and best-effort,
never fatal; in dry-run mode only logs.  The digest value itself does not
appear in the trace (only the sidecar write does); `chkOk` tells whether
the per-file try block (hashing and writing) succeeded. -/
def checksum_stage (cfg : Cfg) (w : World) (files : List String) : List Action :=
  if !cfg.MAKE_CHECKSUM then []
  else
    let chkDir := if cfg.CHECKSUM_DIR = "" then cfg.OUT_DIR else cfg.CHECKSUM_DIR
    if !cfg.DRY_RUN then
      files.flatMap (fun f =>
        let chkPath := chkDir ++ "/" ++ baseName f ++ ".sha256"
        if w.chkOk f then
          [Action.mkdir chkDir, Action.writeFile chkPath,
            Action.log ("Membuat SHA256: " ++ chkPath)]
        else [Action.log "Lewati checksum"])
    else
      files.map (fun f =>
        Action.log ("DRY-RUN: sha256 " ++ f ++ " > " ++ chkDir ++ "/" ++
          baseName f ++ ".sha256"))

/-- The summary-file path (source lines 435-440), including the source's
defensive drop of one trailing character after a doubled closing brace. -/
def summaryPath (cfg : Cfg) : String :=
  let dir := if cfg.SUMMARY_DIR = "" then cfg.OUT_DIR else cfg.SUMMARY_DIR
  let sj := dir ++ "/" ++ cfg.BASE ++ ".summary.json"
  if ("\x7d.json\x7d".data).isSuffixOf sj.data then String.mk sj.data.dropLast else sj

/-- The summary stage (source lines 432-451).  Note: this stage runs in
dry-run mode too (only the recorded size string differs), creating the
summary directory and writing the JSON file.  Returns the `SUMMARY_JSON`
path ("" when the stage is disabled). -/
def summary_stage (cfg : Cfg) : List Action × String :=
  if !cfg.MAKE_SUMMARY then ([], "")
  else
    let dir := if cfg.SUMMARY_DIR = "" then cfg.OUT_DIR else cfg.SUMMARY_DIR
    ([Action.mkdir dir, Action.writeFile (summaryPath cfg),
      Action.log ("Ringkasan: " ++ summaryPath cfg)], summaryPath cfg)

/-- `make_archive` (source lines 255-453): the sequenced pipeline.  The
result is the full action trace plus either a fatal error or the triple
`(primary_output_path, files_to_upload, SUMMARY_JSON)`. -/
def make_archive (cfg : Cfg) (w : World) (paths : List String) :
    List Action × Except String (String × List String × String) :=
  if paths = [] then ([], Except.error "Tidak ada item terpilih.")
  else
    let logFile := cfg.OUT_DIR ++ "/" ++ cfg.BASE ++ ".log"
    let a0 := [Action.mkdir cfg.OUT_DIR, Action.log ("Log: " ++ logFile)]
    let patterns := collect_exclude_patterns cfg
    let aDry :=
      if cfg.DRY_RUN then
        [Action.log "DRY-RUN MODE - tidak ada perubahan nyata.",
          Action.log ("Format: " ++ cfg.ARCHIVE_FORMAT),
          Action.log ("Output dir: " ++ cfg.OUT_DIR ++ "  Base: " ++ cfg.BASE),
          Action.log ("Split: " ++ cfg.SPLIT_SIZE ++ "  Upload: " ++ cfg.UPLOAD_TARGET),
          Action.log ("Excludes: " ++ toString patterns.length ++ " pola")] ++
          paths.flatMap (fun p => [Action.readSize p, Action.log ("- " ++ baseName p)])
      else []
    let ar := archive_stage cfg w paths patterns
    match ar.2 with
    | Except.error e => (a0 ++ aDry ++ ar.1, Except.error e)
    | Except.ok tmp =>
      let ge := gpg_stage cfg w tmp
      match ge.2 with
      | Except.error e => (a0 ++ aDry ++ ar.1 ++ ge.1, Except.error e)
      | Except.ok primary =>
        let sp := split_stage cfg.SPLIT_SIZE cfg.DRY_RUN cfg.KEEP_AFTER_SPLIT
          cfg.RM_AFTER_SPLIT (w.removeOk primary) (w.fileBytes primary) primary
        let ck := checksum_stage cfg w sp.2
        let sm := summary_stage cfg
        (a0 ++ aDry ++ ar.1 ++ ge.1 ++ sp.1 ++ ck ++ sm.1,
          Except.ok (primary, sp.2, sm.2))

/-! ## Upload dispatcher (source lines 455-518) -/

/-- The tools the dispatcher's if/elif chain handles; anything else hits
the `UPLOAD_TOOL tidak didukung` branch and returns 1 at once. -/
def supportedTool (tool : String) : Bool :=
  tool == "rclone" || tool == "aws" || tool == "lftp" || tool == "scp"

/-- The `auto` tool selection (source lines 464-474): prefer rclone, then
aws for `s3://` targets, then lftp, then scp for `sftp://` targets, else
default back to rclone unchecked. -/
def resolveTool (tool target : String) (w : World) : String :=
  if tool = "auto" then
    if w.cmdExists "rclone" then "rclone"
    else if ("s3://".data).isPrefixOf target.data && w.cmdExists "aws" then "aws"
    else if w.cmdExists "lftp" then "lftp"
    else if ("sftp://".data).isPrefixOf target.data then "scp"
    else "rclone"
  else tool

/-- The tool `do_upload_one` ends up using: `UPLOAD_TOOL or "auto"`, then
`auto` resolution. -/
def effectiveTool (cfg : Cfg) (w : World) : String :=
  resolveTool (if cfg.UPLOAD_TOOL = "" then "auto" else cfg.UPLOAD_TOOL)
    cfg.UPLOAD_TARGET w

/-- The per-attempt upload command of each supported tool. -/
def uploadCmd (tool target file : String) : List String :=
  if tool = "rclone" then ["rclone", "copy", file, target, "--progress"]
  else if tool = "aws" then ["aws", "s3", "cp", file, target]
  else if tool = "lftp" then
    ["lftp", "-c", "open " ++ target ++ "; put -O . " ++ file ++ "; bye"]
  else ["scp", file, String.mk (target.data.drop 7)]

/-- What one `do_upload_one` call did: its actions, the returned exit code
(0 success / 1 failure), how many upload attempts were made and the
sequence of sleep delays. -/
structure UploadTrace where
  actions : List Action
  rc : Nat
  attempts : Nat
  delays : List Nat
deriving DecidableEq

/-- The retry loop of `do_upload_one` (source lines 478-516): while
`attempt <= tries`, run the tool (dry-run forces exit code 0), return 0 on
success (after the optional rclone size check and the optional best-effort
local delete), else sleep `delay`, double it and retry.  `fuel` is
`tries - attempt + 1`, the number of remaining loop iterations. -/
def uploadLoop (cfg : Cfg) (w : World) (file tool : String) :
    Nat → Nat → Nat → UploadTrace
  | _, _, 0 => ⟨[], 1, 0, []⟩
  | attempt, delay, fuel + 1 =>
    let logA := Action.log ("Attempt " ++ toString attempt ++ "/" ++
      toString cfg.UPLOAD_RETRY ++ " ...")
    if supportedTool tool then
      let cmd := uploadCmd tool cfg.UPLOAD_TARGET file
      let r := run_or_echo cfg.DRY_RUN (w.uploadRc file attempt) cmd
      if r.2 = 0 then
        let extra :=
          if tool == "rclone" && !cfg.DRY_RUN then
            [Action.run ["rclone", "check", file, cfg.UPLOAD_TARGET, "--size-only"],
              Action.log "Verifikasi rclone (size-only) selesai."]
          else []
        let rmA :=
          if cfg.AFTER_UPLOAD_RM then
            (run_or_echo cfg.DRY_RUN (w.runRc ["rm", "-f", "--", file])
              ["rm", "-f", "--", file]).1 ++ [Action.log ("Hapus lokal: " ++ file)]
          else []
        ⟨logA :: r.1 ++ extra ++ [Action.log ("Upload sukses: " ++ file)] ++ rmA,
          0, 1, []⟩
      else
        let t := uploadLoop cfg w file tool (attempt + 1) (delay * 2) fuel
        ⟨logA :: r.1 ++ [Action.log "Upload gagal.", Action.sleep delay] ++ t.actions,
          t.rc, t.attempts + 1, delay :: t.delays⟩
    else ⟨[logA, Action.log ("UPLOAD_TOOL tidak didukung: " ++ tool)], 1, 0, []⟩

/-- `do_upload_one` (source lines 456-518): immediate success with no
target; else the retry loop starting at attempt 1, delay 2, with
`UPLOAD_RETRY` iterations available.  Returns 1 after the loop exhausts
its attempts (or at once for an unsupported tool). -/
def do_upload_one (cfg : Cfg) (w : World) (file : String) : UploadTrace :=
  if cfg.UPLOAD_TARGET = "" then ⟨[], 0, 0, []⟩
  else
    let tool := effectiveTool cfg w
    let t := uploadLoop cfg w file tool 1 2 cfg.UPLOAD_RETRY
    ⟨Action.log ("Upload menggunakan: " ++ tool ++ " -> " ++ cfg.UPLOAD_TARGET) ::
      t.actions, t.rc, t.attempts, t.delays⟩

/-! ## Headless aggregation and dispatch (source lines 936-949) -/

/-- The upload phase of `headless_make_archive`: `FINAL_STATUS` starts as
`"success"`; with a target configured, every file of `files_to_upload`
that exists (or always, in dry-run mode) is uploaded and any nonzero exit
flips the status to `"failure"`.  Returns the actions and the final
status. -/
def headless_upload (cfg : Cfg) (w : World) (files : List String) :
    List Action × String :=
  if cfg.UPLOAD_TARGET = "" then ([], "success")
  else
    files.foldl (fun acc f =>
      if w.fileExists f || cfg.DRY_RUN then
        (acc.1 ++ (do_upload_one cfg w f).actions,
          if (do_upload_one cfg w f).rc ≠ 0 then "failure" else acc.2)
      else acc) ([], "success")

/-- The notification dispatch at the end of `headless_make_archive`
(source lines 945-948): exactly one `run_plugins` call, `on_success` for a
successful aggregate status and `on_failure` otherwise.  The list holds
the `(event, final_status)` pairs dispatched. -/
def headless_dispatch (cfg : Cfg) (w : World) (files : List String) :
    List (String × String) :=
  let st := (headless_upload cfg w files).2
  if st = "success" then [("on_success", st)] else [("on_failure", st)]

/-! ## Plugin resolution and invocation (source lines 521-618) -/

/-- Oracle for the plugin probe: `os.path.isfile` and `os.access(X_OK)`. -/
structure FS where
  isFile : String → Bool
  isExec : String → Bool

/-- The candidate paths `_resolve_plugin` probes (source lines 562-569):
a target that is absolute or contains a path separator is tried literally
with the extensions `""`, `".py"`, `".sh"`; any other target is tried only
under the plugins directory with the same extensions. -/
def plugin_candidates (tgt dir : String) : List String :=
  let exts := ["", ".py", ".sh"]
  if tgt.data.head? = some '/' || tgt.data.contains '/' then
    exts.map (fun e => tgt ++ e)
  else
    exts.map (fun e => joinPath dir (tgt ++ e))

/-- The probe loop of `_resolve_plugin` (source lines 570-576): the first
existing candidate that is executable is invoked directly; an existing but
non-executable candidate is invoked through the Python interpreter only
when it ends in `.py`, otherwise it is skipped and probing continues. -/
def resolveLoop (fs : FS) (pyexe : String) : List String → Option (List String × String)
  | [] => none
  | p :: rest =>
    if fs.isFile p then
      if fs.isExec p then some ([p], p)
      else if (".py".data).isSuffixOf p.data then some ([pyexe, p], p)
      else resolveLoop fs pyexe rest
    else resolveLoop fs pyexe rest

/-- `_resolve_plugin` (source lines 551-576). -/
def resolve_plugin (fs : FS) (pyexe tgt dir : String) : Option (List String × String) :=
  resolveLoop fs pyexe (plugin_candidates tgt dir)

/-- Modelled from the amended claim's wording: first resolvable candidate
in probe order, where a candidate resolves iff it exists and is executable
(direct invocation) or exists and ends in `.py` (interpreter invocation). -/
def resolve_plugin_spec (fs : FS) (pyexe tgt dir : String) :
    Option (List String × String) :=
  (plugin_candidates tgt dir).findSome? (fun p =>
    if fs.isFile p && fs.isExec p then some ([p], p)
    else if fs.isFile p && (".py".data).isSuffixOf p.data then some ([pyexe, p], p)
    else none)

/-- One processed notify target of `run_plugins` (source lines 601-618). -/
inductive PluginStep where
  | telegram
  | email
  | dryLogged (path : String)
  | invoke (cmd : List String) (path : String)
  | unresolved (tgt : String)
deriving DecidableEq

/-- The per-target dispatch loop of `run_plugins`: built-in names handled
in-process, everything else resolved as an external plugin; an
unresolvable target is logged and the loop continues with the next
target. -/
def run_plugins_steps (fs : FS) (pyexe dir : String) (dry : Bool)
    (targets : List String) : List PluginStep :=
  targets.map (fun tgt0 =>
    let tgt := String.mk (pyStrip tgt0.data)
    if tgt = "telegram" then PluginStep.telegram
    else if tgt = "email" then PluginStep.email
    else
      match resolve_plugin fs pyexe tgt dir with
      | some (cmd, p) => if dry then PluginStep.dryLogged p else PluginStep.invoke cmd p
      | none => PluginStep.unresolved tgt)

/-- `dict.update` over an environment: the keys of `kvs` (all distinct in
the source) override the inherited `os.environ` copy `base`. -/
def envUpdate (base : String → Option String) (kvs : List (String × String)) :
    String → Option String :=
  fun k =>
    match kvs.lookup k with
    | some v => some v
    | none => base k

/-- The plugin process environment built by `run_plugins` (source lines
578-599): the inherited environment updated with the twelve payload
fields.  `hts` stands for `human_total_size` (a read-only size rendering
whose output format no claim constrains; the source's surrounding
try/except cannot fire because `human_total_size` catches its own stat
errors). -/
def run_plugins_env (base : String → Option String) (event sj primary : String)
    (files : List String) (outDir bas status logFile notifyConfig target : String)
    (dry : Bool) (hts : List String → String) : String → Option String :=
  let total := if dry then "(estimasi)" else hts files
  envUpdate base
    [("EVENT", event),
     ("SUMMARY_FILE", sj),
     ("ARCHIVE_PATH", primary),
     ("FILES", String.intercalate "\n" files),
     ("OUTPUT_DIR", outDir),
     ("BASE_NAME", bas),
     ("STATUS", status),
     ("LOG_FILE", logFile),
     ("NOTIFY_CONFIG", notifyConfig),
     ("UPLOAD_TARGET", target),
     ("DRY_RUN", if dry then "1" else "0"),
     ("TOTAL_SIZE", total)]

/-! ## Config-file loader (source lines 151-199) and the double load

`main` (lines 1146-1153) loads the config file once and then calls
`apply_args`, which (lines 1098-1100) loads the very same file again.
String and boolean keys are plain assignments; `EXCLUDES`, `SOURCES` and
`NOTIFY` extend their accumulating lists. -/

/-- `CFG_BOOL_KEYS` of the source. -/
def CFG_BOOL_KEYS : List String :=
  ["ZIP_AES", "USE_GPG", "ZIP_ENCRYPT", "KEEP_AFTER_SPLIT", "RM_AFTER_SPLIT",
   "NO_UI", "AFTER_UPLOAD_RM", "DRY_RUN", "MAKE_CHECKSUM", "MAKE_SUMMARY"]

/-- `CFG_STR_KEYS` of the source. -/
def CFG_STR_KEYS : List String :=
  ["START_DIR", "DEST_DIR", "ARCHIVE_FORMAT", "SPLIT_SIZE", "OUT_NAME",
   "ZIP_PASSWORD", "EXCLUDE_FILE", "UPLOAD_TARGET", "UPLOAD_TOOL",
   "UPLOAD_RETRY", "PLUGINS_DIR", "NOTIFY_CONFIG", "EMAIL_TO", "EMAIL_SUBJECT",
   "TELEGRAM_BOT_TOKEN", "TELEGRAM_CHAT_ID", "SUMMARY_DIR", "CHECKSUM_DIR"]

/-- `int()` on an already stripped/lowered token: optional sign, then a
non-empty run of digits. -/
def pyInt (l : List Char) : Option Int :=
  let t := pyStrip l
  let p : Int × List Char :=
    match t with
    | '-' :: rest => (-1, rest)
    | '+' :: rest => (1, rest)
    | _ => (1, t)
  if !p.2.isEmpty && p.2.all Char.isDigit then some (p.1 * (digitsVal p.2 : Int))
  else none

/-- `_parse_bool` (source lines 91-102): a fixed truthy/falsy token set,
then a numeric nonzero test, anything else false. -/
def parse_bool (v : List Char) : Bool :=
  let s := pyLower (pyStrip v)
  if s = "1".data || s = "true".data || s = "yes".data || s = "on".data ||
      s = "y".data || s = "t".data then true
  else if s = "0".data || s = "false".data || s = "no".data || s = "off".data ||
      s = "n".data || s = "f".data || s = [] then false
  else
    match pyInt s with
    | some n => n != 0
    | none => false

/-- Python `v.split(',')` then per-part strip, keeping non-empty parts
(the list comprehension of the `SOURCES`/`NOTIFY` branches and the body of
`add_excludes_from_arg`). -/
def splitCommaStrip (v : List Char) : List String :=
  (((v.splitOn ',').map pyStrip).filter (fun p => !p.isEmpty)).map String.mk

/-- The state `load_config_file` mutates: the string-valued and
boolean-valued globals keyed by their names (the source assigns through
`globals()[k]`), and the three accumulating lists. -/
structure Config where
  strs : String → String
  bools : String → Bool
  excludes : List String
  sources : List String
  notifyTargets : List String

/-- What one config line does, mirroring the per-line if/elif chain of
`load_config_file` (source lines 180-199). -/
inductive LineEff where
  | skip
  | setStr (k v : String)
  | setBool (k : String) (b : Bool)
  | addExcludes (vs : List String)
  | addSources (vs : List String)
  | addNotify (vs : List String)

/-- Characters before the first `=` (the key half of `line.split('=', 1)`). -/
def keyPart (l : List Char) : List Char :=
  l.takeWhile (fun c => c != '=')

/-- Characters after the first `=` (the value half of `line.split('=', 1)`). -/
def valPart (l : List Char) : List Char :=
  (l.dropWhile (fun c => c != '=')).drop 1

/-- Classify one raw config line: skip blank, comment and `=`-less lines;
strip the key; strip whitespace and one layer of double then single quotes
off the value; dispatch on the key class. -/
def lineEff (line : List Char) : LineEff :=
  if pyStrip line = [] then LineEff.skip
  else if (pyLStrip line).head? = some '#' then LineEff.skip
  else if !line.contains '=' then LineEff.skip
  else
    let k := String.mk (pyStrip (keyPart line))
    let v := stripChar '\'' (stripChar '"' (pyStrip (valPart line)))
    if k ∈ CFG_STR_KEYS then LineEff.setStr k (String.mk v)
    else if k ∈ CFG_BOOL_KEYS then LineEff.setBool k (parse_bool v)
    else if k = "EXCLUDES" then LineEff.addExcludes (splitCommaStrip v)
    else if k = "SOURCES" then LineEff.addSources (splitCommaStrip v)
    else if k = "NOTIFY" then LineEff.addNotify (splitCommaStrip v)
    else LineEff.skip

/-- Apply one classified line to the config state. -/
def applyEff (c : Config) : LineEff → Config
  | LineEff.skip => c
  | LineEff.setStr k v => { c with strs := fun q => if q = k then v else c.strs q }
  | LineEff.setBool k b => { c with bools := fun q => if q = k then b else c.bools q }
  | LineEff.addExcludes vs => { c with excludes := c.excludes ++ vs }
  | LineEff.addSources vs => { c with sources := c.sources ++ vs }
  | LineEff.addNotify vs => { c with notifyTargets := c.notifyTargets ++ vs }

/-- `load_config_file` (source lines 169-199) over the lines of a readable
config file. -/
def load_config_file (c : Config) (ls : List (List Char)) : Config :=
  ls.foldl (fun a l => applyEff a (lineEff l)) c

/-- The configuration phase of `main` for a supplied config file: `main`
line 1151 loads the file, then `apply_args` lines 1098-1100 load the same
file a second time. -/
def main_and_apply_config (c : Config) (cfgLines : Option (List (List Char))) : Config :=
  let c1 :=
    match cfgLines with
    | some ls => load_config_file c ls
    | none => c
  match cfgLines with
  | some ls => load_config_file c1 ls
  | none => c1

/-- The `EXCLUDES` entries a list of config lines contributes, in order. -/
def excludesOf (ls : List (List Char)) : List String :=
  (ls.map (fun l =>
    match lineEff l with
    | LineEff.addExcludes vs => vs
    | _ => [])).flatten

/-- The `SOURCES` entries a list of config lines contributes, in order. -/
def sourcesOf (ls : List (List Char)) : List String :=
  (ls.map (fun l =>
    match lineEff l with
    | LineEff.addSources vs => vs
    | _ => [])).flatten

/-- The `NOTIFY` entries a list of config lines contributes, in order. -/
def notifyOf (ls : List (List Char)) : List String :=
  (ls.map (fun l =>
    match lineEff l with
    | LineEff.addNotify vs => vs
    | _ => [])).flatten


/-! ## Further definitions used by the claim theorems -/

/-- Modelled from the spec's wording of the size-string form: a non-empty
run of decimal digits followed by one unit character `k`, `m` or `g`
(case-insensitive), and nothing else. -/
def size_form_spec (s : String) : Bool :=
  !s.data.dropLast.isEmpty && s.data.dropLast.all Char.isDigit &&
    (match s.data.getLast? with
     | some u => sizeUnitChar u
     | none => false)

/-- Concrete configuration for the C1 counterexample: an upload target and
an explicitly configured tool the dispatcher's if/elif chain does not
handle (reachable, since the config file accepts any `UPLOAD_TOOL`
string). -/
def cfgC1 : Cfg :=
  { UPLOAD_TARGET := "remote:dir", UPLOAD_TOOL := "gsutil", UPLOAD_RETRY := 3 }

/-- World for the C1 counterexample: every file exists and every upload
attempt would succeed (exit code 0). -/
def wC1 : World :=
  ⟨fun _ => true, fun _ => 0, fun _ => none, fun _ => [], fun _ => true,
   fun _ => true, "", fun _ _ => 0, fun _ => true⟩

/-- Concrete configuration for the C1 witness: supported tool `scp`, one
retry allowed. -/
def cfgC1w : Cfg :=
  { UPLOAD_TARGET := "sftp://h:/d", UPLOAD_TOOL := "scp", UPLOAD_RETRY := 1 }

/-- World for the C1 witness: the file exists and every upload attempt
fails with exit code 1. -/
def wC1w : World :=
  ⟨fun _ => true, fun _ => 1, fun _ => none, fun _ => [], fun _ => true,
   fun _ => true, "", fun _ _ => 1, fun _ => true⟩

/-- Configuration for the C10 witness: an upload target with one retry. -/
def cfgC10 : Cfg :=
  { UPLOAD_TARGET := "remote:d", UPLOAD_TOOL := "rclone", UPLOAD_RETRY := 1 }

/-- World for the C10 witness: only the file `a` exists on disk and every
upload attempt fails. -/
def wC10 : World :=
  ⟨fun _ => true, fun _ => 1, fun _ => none, fun _ => [], fun _ => true,
   fun _ => true, "", fun _ _ => 1, fun f => f == "a"⟩

/-- Filesystem for the C7 counterexample: the literal file `foo` exists
and is executable; nothing exists under the plugins directory. -/
def fsC7 : FS := ⟨fun p => p == "foo", fun p => p == "foo"⟩

/-- The string-assignment a classified line performs. -/
def strUpd (e : LineEff) (s : String → String) : String → String :=
  match e with
  | LineEff.setStr k v => fun q => if q = k then v else s q
  | _ => s

/-- The boolean-assignment a classified line performs. -/
def boolUpd (e : LineEff) (s : String → Bool) : String → Bool :=
  match e with
  | LineEff.setBool k b => fun q => if q = k then b else s q
  | _ => s

/-- The value the last `setStr` assignment of `ls` gives key `k`, if any. -/
def lastStr (ls : List (List Char)) (k : String) : Option String :=
  match ls with
  | [] => none
  | l :: rest =>
    match lastStr rest k with
    | some v => some v
    | none =>
      match lineEff l with
      | LineEff.setStr q v => if q = k then some v else none
      | _ => none

/-- The value the last `setBool` assignment of `ls` gives key `k`, if any. -/
def lastBool (ls : List (List Char)) (k : String) : Option Bool :=
  match ls with
  | [] => none
  | l :: rest =>
    match lastBool rest k with
    | some v => some v
    | none =>
      match lineEff l with
      | LineEff.setBool q v => if q = k then some v else none
      | _ => none

/-- Is the action a log write (the one mutation dry-run mode may do)? -/
def Action.isLog : Action → Bool
  | Action.log _ => true
  | _ => false

/-- Is the action the read-only `du -sh` size probe? -/
def Action.isReadSize : Action → Bool
  | Action.readSize _ => true
  | _ => false

/-- Is the action an interactive `input()` prompt? -/
def Action.isReadInput : Action → Bool
  | Action.readInput _ => true
  | _ => false

/-- What a dry run is allowed to do per the amended claim: logging, the
read-only `du` size probes, interactive prompts, the unconditional
creation of the output directory, and — when the summary stage is enabled
— the creation of the summary directory and the write of the summary JSON
file (the source performs these even in dry-run mode). -/
def dryAllowed (cfg : Cfg) (a : Action) : Bool :=
  a.isLog || a.isReadSize || a.isReadInput ||
    (a == Action.mkdir cfg.OUT_DIR) ||
    (cfg.MAKE_SUMMARY &&
      ((a == Action.mkdir (if cfg.SUMMARY_DIR = "" then cfg.OUT_DIR else cfg.SUMMARY_DIR)) ||
        (a == Action.writeFile (summaryPath cfg))))

/-- Configuration for the C8 counterexample: dry run with the summary
stage enabled. -/
def cfgC8 : Cfg :=
  { ARCHIVE_FORMAT := "tar", DRY_RUN := true, MAKE_SUMMARY := true,
    OUT_DIR := "o", BASE := "b" }

/-- A world in which every command exists and every call succeeds. -/
def wAll : World :=
  ⟨fun _ => true, fun _ => 0, fun _ => none, fun _ => [], fun _ => true,
   fun _ => true, "", fun _ _ => 0, fun _ => true⟩

/-- Configuration for the C8 witness: a dry run of the tar pipeline with
the summary stage off. -/
def cfgC8w : Cfg :=
  { ARCHIVE_FORMAT := "tar", DRY_RUN := true, OUT_DIR := "o", BASE := "b" }

/-! ## Lemmas about `do_python_split` -/

theorem ceil_step (n c : Nat) (hc : 0 < c) (hn : 0 < n) :
    (n + c - 1) / c = (n - c + c - 1) / c + 1 := by
  rcases le_or_lt n c with h | h
  · have h1 : n - c = 0 := by omega
    rw [h1]
    have h2 : (0 + c - 1) / c = 0 := by
      apply Nat.div_eq_of_lt; omega
    rw [h2]
    have h3 : n + c - 1 = (n - 1) + 1 * c := by omega
    rw [h3, Nat.add_mul_div_right _ _ hc, Nat.div_eq_of_lt (by omega)]
  · have h3 : n + c - 1 = (n - c + c - 1) + c := by omega
    rw [h3, Nat.add_div_right _ hc]

theorem split_eq_map_range (c : Nat) (data : List Nat) :
    do_python_split c data =
      (List.range ((data.length + c - 1) / c)).map (fun i => (data.drop (i * c)).take c) := by
  induction data using do_python_split.induct c with
  | case1 data h =>
    rw [do_python_split, dif_pos h]
    rcases h with h | h
    · subst h
      simp only [List.length_nil, Nat.zero_add]
      rcases Nat.eq_zero_or_pos c with hc | hc
      · simp [hc]
      · rw [Nat.div_eq_of_lt (by omega)]
        simp
    · subst h
      simp
  | case2 data h ih =>
    have h' := h
    push_neg at h'
    obtain ⟨hd, hc⟩ := h'
    have hc' : 0 < c := Nat.pos_of_ne_zero hc
    have hn : 0 < data.length := List.length_pos.mpr hd
    rw [do_python_split, dif_neg h]
    rw [ih]
    rw [List.length_drop]
    rw [show (data.length + c - 1) / c = (data.length - c + c - 1) / c + 1 from
      ceil_step _ _ hc' hn]
    rw [List.range_succ_eq_map]
    simp only [List.map_cons, List.map_map, Nat.zero_mul, List.drop_zero, Function.comp]
    congr 1
    apply List.map_congr_left
    intro i _
    show (List.drop (i * c) (List.drop c data)).take c = (data.drop (Nat.succ i * c)).take c
    rw [List.drop_drop]
    congr 2
    rw [Nat.succ_mul]
    omega

theorem split_join (c : Nat) (hc : 0 < c) (data : List Nat) :
    (do_python_split c data).flatten = data := by
  induction data using do_python_split.induct c with
  | case1 data h =>
    rw [do_python_split, dif_pos h]
    rcases h with h | h
    · subst h; rfl
    · omega
  | case2 data h ih =>
    rw [do_python_split, dif_neg h]
    rw [List.flatten_cons, ih, List.take_append_drop]

theorem range_add_one (n : Nat) : List.range (n + 1) = List.range n ++ [n] := by
  rw [← Nat.succ_eq_add_one]
  exact List.range_succ n

theorem le_ceil_mul (n c : Nat) (hc : 0 < c) : n ≤ ((n + c - 1) / c) * c := by
  have h1 : c * ((n + c - 1) / c) + (n + c - 1) % c = n + c - 1 := Nat.div_add_mod _ _
  have h2 : (n + c - 1) % c < c := Nat.mod_lt _ hc
  have h3 : ((n + c - 1) / c) * c = c * ((n + c - 1) / c) := Nat.mul_comm _ _
  omega

theorem ceil_pred_mul_lt (n c : Nat) (hc : 0 < c) (hn : 0 < n) :
    (((n + c - 1) / c) - 1) * c < n := by
  have h2 : ((n + c - 1) / c) * c ≤ n + c - 1 := Nat.div_mul_le_self _ _
  have h4 : (((n + c - 1) / c) - 1) * c = ((n + c - 1) / c) * c - 1 * c := by
    rw [Nat.sub_mul]
  omega

theorem ceil_decomp_zero (c q : Nat) (hc : 0 < c) : (c * q + c - 1) / c = q := by
  rcases Nat.eq_zero_or_pos q with hq | hq
  · subst hq
    simp only [Nat.mul_zero, Nat.zero_add]
    exact Nat.div_eq_of_lt (by omega)
  · have hcq : c ≤ c * q := Nat.le_mul_of_pos_right c hq
    have he : c * q + c - 1 = (c - 1) + c * q := by omega
    rw [he, Nat.add_mul_div_left _ _ hc, Nat.div_eq_of_lt (by omega)]
    omega

theorem ceil_decomp_pos (c q r : Nat) (hc : 0 < c) (hr : r < c) (h0 : r ≠ 0) :
    ((c * q + r) + c - 1) / c = q + 1 := by
  have hm : c * (q + 1) = c * q + c := Nat.mul_succ c q
  have he : c * q + r + c - 1 = (r - 1) + c * (q + 1) := by omega
  rw [he, Nat.add_mul_div_left _ _ hc, Nat.div_eq_of_lt (by omega)]
  omega

theorem mod_decomp (c q r : Nat) (hr : r < c) : (c * q + r) % c = r := by
  rw [Nat.add_comm, Nat.add_mul_mod_self_left]
  exact Nat.mod_eq_of_lt hr

theorem split_length (c : Nat) (data : List Nat) :
    (do_python_split c data).length = (data.length + c - 1) / c := by
  rw [split_eq_map_range]
  simp

theorem dropLast_range (n : Nat) : (List.range n).dropLast = List.range (n - 1) := by
  cases n with
  | zero => rfl
  | succ k =>
    rw [range_add_one, List.dropLast_concat]
    simp

theorem split_dropLast_length (c : Nat) (hc : 0 < c) (data : List Nat) :
    ∀ l ∈ (do_python_split c data).dropLast, l.length = c := by
  intro l hl
  rw [split_eq_map_range, ← List.map_dropLast, dropLast_range] at hl
  obtain ⟨i, hi, rfl⟩ := List.mem_map.mp hl
  have hi' : i < (data.length + c - 1) / c - 1 := List.mem_range.mp hi
  rcases Nat.eq_zero_or_pos data.length with hz | hz
  · exfalso
    rw [hz] at hi'
    rw [Nat.zero_add, Nat.div_eq_of_lt (by omega)] at hi'
    omega
  · have hlow : (((data.length + c - 1) / c) - 1) * c < data.length :=
      ceil_pred_mul_lt _ _ hc hz
    have hmono : (i + 1) * c ≤ (((data.length + c - 1) / c) - 1) * c :=
      Nat.mul_le_mul_right c (by omega)
    have hsm : (i + 1) * c = i * c + c := Nat.succ_mul i c
    rw [List.length_take, List.length_drop]
    omega

theorem split_getLast_length (c : Nat) (hc : 0 < c) (data : List Nat) (hd : data ≠ []) :
    (do_python_split c data).getLast?.map List.length =
      some (if data.length % c = 0 then c else data.length % c) := by
  have hn : 0 < data.length := List.length_pos.mpr hd
  obtain ⟨q, r, hr, hqr⟩ : ∃ q r, r < c ∧ data.length = c * q + r :=
    ⟨data.length / c, data.length % c, Nat.mod_lt _ hc, (Nat.div_add_mod _ _).symm⟩
  have hmod : data.length % c = r := by rw [hqr]; exact mod_decomp c q r hr
  rw [split_eq_map_range]
  by_cases h0 : r = 0
  · subst h0
    have hq : 0 < q := by
      rcases Nat.eq_zero_or_pos q with h | h
      · exfalso; rw [h, Nat.mul_zero] at hqr; omega
      · exact h
    have hceil : (data.length + c - 1) / c = q := by
      rw [hqr, Nat.add_zero]; exact ceil_decomp_zero c q hc
    rw [hceil, hmod, if_pos rfl]
    have hrange : List.range q = List.range (q - 1) ++ [q - 1] := by
      have hq1 : q = (q - 1) + 1 := by omega
      rw [hq1, range_add_one]
      simp only [Nat.add_sub_cancel]
    rw [hrange, List.map_append, List.map_cons, List.map_nil, List.getLast?_concat]
    simp only [Option.map_some']
    congr 1
    rw [List.length_take, List.length_drop]
    have hps : (q - 1) * c = q * c - 1 * c := Nat.sub_mul q 1 c
    have hcm : q * c = c * q := Nat.mul_comm q c
    have hcq : c ≤ c * q := Nat.le_mul_of_pos_right c hq
    omega
  · have hceil : (data.length + c - 1) / c = q + 1 := by
      rw [hqr]; exact ceil_decomp_pos c q r hc hr h0
    rw [hceil, hmod, if_neg h0]
    rw [range_add_one, List.map_append, List.map_cons, List.map_nil, List.getLast?_concat]
    simp only [Option.map_some']
    congr 1
    rw [List.length_take, List.length_drop]
    have hcm : q * c = c * q := Nat.mul_comm q c
    omega

theorem split_named_snd (c : Nat) (pre : String) (data : List Nat) (idx : Nat) :
    (do_python_split_named c pre data idx).map Prod.snd = do_python_split c data := by
  induction data, idx using do_python_split_named.induct c pre with
  | case1 data idx h =>
    rw [do_python_split_named, dif_pos h, do_python_split, dif_pos h]
    rfl
  | case2 data idx h ih =>
    rw [do_python_split_named, dif_neg h, do_python_split, dif_neg h]
    simp only [List.map_cons]
    rw [ih]

theorem split_named_fst (c : Nat) (pre : String) (data : List Nat) (idx : Nat) :
    (do_python_split_named c pre data idx).map Prod.fst =
      (List.range (do_python_split c data).length).map (fun i => pre ++ fmt03 (idx + i)) := by
  induction data, idx using do_python_split_named.induct c pre with
  | case1 data idx h =>
    rw [do_python_split_named, dif_pos h, do_python_split, dif_pos h]
    rfl
  | case2 data idx h ih =>
    rw [do_python_split_named, dif_neg h, do_python_split, dif_neg h]
    simp only [List.map_cons, List.length_cons]
    rw [ih]
    rw [List.range_succ_eq_map]
    simp only [List.map_cons, List.map_map, Nat.add_zero, Function.comp]
    congr 1
    apply List.map_congr_left
    intro i _
    show pre ++ fmt03 (idx + 1 + i) = pre ++ fmt03 (idx + Nat.succ i)
    congr 2
    omega

theorem natDigits_length_le (k : Nat) : ∀ n : Nat, n < 10 ^ (k + 1) → (natDigits n).length ≤ k + 1 := by
  induction k with
  | zero =>
    intro n hn
    rw [natDigits, dif_pos (by norm_num at hn; omega)]
    simp
  | succ k ih =>
    intro n hn
    by_cases h : n < 10
    · rw [natDigits, dif_pos h]
      simp
    · rw [natDigits, dif_neg h]
      rw [List.length_append]
      have hdiv : n / 10 < 10 ^ (k + 1) := by
        apply Nat.div_lt_of_lt_mul
        rw [pow_succ] at hn
        omega
      have := ih _ hdiv
      simp only [List.length_cons, List.length_nil]
      omega

theorem fmt03_length (n : Nat) : (fmt03 n).length = max 3 (natDigits n).length := by
  show (List.replicate (3 - (natDigits n).length) '0' ++ natDigits n).length = _
  rw [List.length_append, List.length_replicate]
  omega

theorem fmt03_length_eq_three (i : Nat) (h : i < 1000) : (fmt03 i).length = 3 := by
  have h1 : (natDigits i).length ≤ 3 := natDigits_length_le 2 i (by norm_num; omega)
  rw [fmt03_length]
  omega

theorem fmt03_thousand_length : (fmt03 1000).length = 4 := by
  have h1 : natDigits 1000 = natDigits 100 ++ [Char.ofNat 48] := by
    rw [natDigits]
    norm_num
  have h2 : natDigits 100 = natDigits 10 ++ [Char.ofNat 48] := by
    rw [natDigits]
    norm_num
  have h3 : natDigits 10 = natDigits 1 ++ [Char.ofNat 48] := by
    rw [natDigits]
    norm_num
  have h4 : natDigits 1 = [Char.ofNat 49] := by
    rw [natDigits]
    norm_num
  rw [fmt03_length, h1, h2, h3, h4]
  simp

/-- C2 (amended): for every input file of size `S` and chunk size `C > 0`
the splitter produces exactly `ceil(S/C)` chunks, each of size `C` except
the last, which has size `S mod C` (or `C` when `S` is an exact multiple);
concatenating the chunks in the order produced reproduces the original
bytes; chunk `i` is named by the decimal index zero-padded to a minimum of
three digits (so exactly three digits for the first 1000 chunks). -/
theorem C2_split_characterization (data : List Nat) (c : Nat) (pre : String)
    (hc : 0 < c) :
    (do_python_split c data).length = (data.length + c - 1) / c ∧
    (∀ l ∈ (do_python_split c data).dropLast, l.length = c) ∧
    (data ≠ [] → (do_python_split c data).getLast?.map List.length =
      some (if data.length % c = 0 then c else data.length % c)) ∧
    (do_python_split c data).flatten = data ∧
    (do_python_split_named c pre data 0).map Prod.fst =
      (List.range (do_python_split c data).length).map (fun i => pre ++ fmt03 i) ∧
    (do_python_split_named c pre data 0).map Prod.snd = do_python_split c data ∧
    (∀ i < 1000, (fmt03 i).length = 3) := by
  refine ⟨split_length c data, split_dropLast_length c hc data, ?_, split_join c hc data,
    ?_, split_named_snd c pre data 0, fun i hi => fmt03_length_eq_three i hi⟩
  · intro hd
    exact split_getLast_length c hc data hd
  · rw [split_named_fst]
    apply List.map_congr_left
    intro i _
    rw [Nat.zero_add]

/-- C2 counterexample: splitting a 1001-byte file with chunk size 1
produces 1001 chunks and the last one carries the four-character numeric
suffix `1000`, so the claim's "zero-padded three-digit numeric suffix" is
not universally true. -/
theorem C2_counterexample :
    (do_python_split_named 1 "b." (List.replicate 1001 0) 0).length = 1001 ∧
    ((do_python_split_named 1 "b." (List.replicate 1001 0) 0).map Prod.fst).getLast? =
      some ("b." ++ fmt03 1000) ∧
    (fmt03 1000).length = 4 := by
  have hlen : (do_python_split 1 (List.replicate 1001 0)).length = 1001 := by
    rw [split_length, List.length_replicate]
  refine ⟨?_, ?_, fmt03_thousand_length⟩
  · have h := split_named_snd 1 "b." (List.replicate 1001 0) 0
    have h2 := congrArg List.length h
    rw [List.length_map] at h2
    rw [h2, hlen]
  · rw [split_named_fst, hlen]
    rw [show (1001 : Nat) = 1000 + 1 from rfl, range_add_one]
    rw [List.map_append, List.map_cons, List.map_nil, List.getLast?_concat,
      Nat.zero_add]

/-- C2 witness: the amended characterization evaluated on the 5-byte file
`[0,1,2,3,4]` with chunk size 2. -/
theorem C2_witness :
    (do_python_split 2 [0, 1, 2, 3, 4]).length = 3 ∧
    (do_python_split 2 [0, 1, 2, 3, 4]).flatten = [0, 1, 2, 3, 4] := by
  have h := C2_split_characterization [0, 1, 2, 3, 4] 2 "p." (by omega)
  refine ⟨?_, h.2.2.2.1⟩
  rw [h.1]
  rfl

/-! ## Lemmas about `parse_split_size` and the split stage (C3) -/

theorem digit_not_ws (c : Char) (h : c.isDigit = true) : c.isWhitespace = false := by
  by_contra hw
  rw [Bool.not_eq_false] at hw
  simp only [Char.isWhitespace, Bool.or_eq_true, decide_eq_true_eq] at hw
  rcases hw with ((hw | hw) | hw) | hw <;> subst hw <;> exact absurd h (by decide)

theorem unit_not_ws (c : Char) (h : sizeUnitChar c = true) : c.isWhitespace = false := by
  simp only [sizeUnitChar, Bool.or_eq_true, beq_iff_eq] at h
  rcases h with ((((h | h) | h) | h) | h) | h <;> subst h <;> decide

theorem dropWhile_ws_eq_self (l : List Char) (h : ∀ c ∈ l, c.isWhitespace = false) :
    l.dropWhile Char.isWhitespace = l := by
  cases l with
  | nil => rfl
  | cons a t => simp [List.dropWhile_cons, h a (List.mem_cons_self a t)]

theorem pyStrip_no_ws (l : List Char) (h : ∀ c ∈ l, c.isWhitespace = false) :
    pyStrip l = l := by
  rw [pyStrip, dropWhile_ws_eq_self l h,
    dropWhile_ws_eq_self l.reverse (fun c hc => h c (List.mem_reverse.mp hc)),
    List.reverse_reverse]

theorem parse_split_size_stripped (s : String) (ds : List Char) (u : Char)
    (hs : pyStrip s.data = ds ++ [u])
    (h1 : ds ≠ []) (h2 : ds.all Char.isDigit = true) (h3 : sizeUnitChar u = true) :
    parse_split_size s = some (digitsVal ds * unitMult u) := by
  have hne : s ≠ "" := by
    intro he
    subst he
    have : (ds ++ [u]).length = 0 := by
      rw [← hs]
      rfl
    simp at this
  simp only [parse_split_size, if_neg hne, hs, List.getLast?_concat,
    List.dropLast_concat]
  have hcond : (!ds.isEmpty && ds.all Char.isDigit && sizeUnitChar u) = true := by
    rw [h2, h3]
    simp [List.isEmpty_iff, h1]
  rw [if_pos hcond]
  simp only [sizeUnitChar, Bool.or_eq_true, beq_iff_eq] at h3
  rcases h3 with ((((h | h) | h) | h) | h) | h <;> subst h <;> simp [unitMult] <;> ring

theorem parse_split_size_valid (ds : List Char) (u : Char)
    (h1 : ds ≠ []) (h2 : ds.all Char.isDigit = true) (h3 : sizeUnitChar u = true) :
    parse_split_size (String.mk (ds ++ [u])) = some (digitsVal ds * unitMult u) := by
  apply parse_split_size_stripped _ ds u _ h1 h2 h3
  have hnows : ∀ c ∈ ds ++ [u], c.isWhitespace = false := by
    intro c hc
    rcases List.mem_append.mp hc with hc | hc
    · exact digit_not_ws c (List.all_eq_true.mp h2 c hc)
    · simp only [List.mem_singleton] at hc
      subst hc
      exact unit_not_ws c h3
  exact pyStrip_no_ws _ hnows

theorem split_stage_invalid (s primary : String) (dry keep rm rok : Bool)
    (bytes : List Nat) (h : parse_split_size s = none) :
    (split_stage s dry keep rm rok bytes primary).2 = [primary] := by
  rw [split_stage]
  by_cases he : s = ""
  · rw [if_pos he]
  · rw [if_neg he, h]

/-- C3 (amended): every string whose *whitespace-stripped* form is `N`
followed by `k`/`m`/`g` (case-insensitive) parses to exactly `N * 1024`,
`N * 1024²` or `N * 1024³` bytes; every string the parser rejects yields
no split and the split stage keeps the unsplit artifact as the sole upload
candidate. -/
theorem C3_parse_split_size (s sm primary : String) (ds : List Char) (u : Char)
    (dry keep rm rok : Bool) (bytes : List Nat) :
    (pyStrip s.data = ds ++ [u] → ds ≠ [] → ds.all Char.isDigit = true →
      sizeUnitChar u = true →
      parse_split_size s = some (digitsVal ds * unitMult u)) ∧
    (parse_split_size sm = none →
      (split_stage sm dry keep rm rok bytes primary).2 = [primary]) :=
  ⟨fun hs h1 h2 h3 => parse_split_size_stripped s ds u hs h1 h2 h3,
   fun h => split_stage_invalid sm primary dry keep rm rok bytes h⟩

/-- C3 counterexample: `" 100m"` is not of the form `N{k|m|g}` (it has a
leading space), yet the parser strips whitespace and accepts it, so "for
every string not of that form, parsing yields no split" fails. -/
theorem C3_counterexample :
    size_form_spec " 100m" = false ∧ parse_split_size " 100m" = some (100 * 1024 * 1024) := by
  constructor
  · decide
  · decide

/-- C3 witness: the amended theorem applied to the string `" 2k"` (which
strips to the digits `2` with unit `k` and parses to 2048 bytes) and to
the malformed string `"abc"` (split skipped, unsplit artifact kept). -/
theorem C3_witness :
    parse_split_size " 2k" = some (digitsVal ['2'] * unitMult 'k') ∧
    (split_stage "abc" false true false true [] "p").2 = ["p"] := by
  have h := C3_parse_split_size " 2k" "abc" "p" ['2'] 'k' false true false true []
  exact ⟨h.1 (by decide) (by decide) (by decide) (by decide), h.2 (by decide)⟩

/-! ## Lemmas about the upload retry loop (C4, C1) -/

theorem uploadLoop_attempts_le (cfg : Cfg) (w : World) (file tool : String) :
    ∀ fuel attempt delay,
      (uploadLoop cfg w file tool attempt delay fuel).attempts ≤ fuel := by
  intro fuel
  induction fuel with
  | zero =>
    intro a d
    simp [uploadLoop]
  | succ n ih =>
    intro a d
    simp only [uploadLoop]
    by_cases hs : supportedTool tool
    · rw [if_pos hs]
      by_cases hr : (run_or_echo cfg.DRY_RUN (w.uploadRc file a)
          (uploadCmd tool cfg.UPLOAD_TARGET file)).2 = 0
      · rw [if_pos hr]
        simp
      · rw [if_neg hr]
        have := ih (a + 1) (d * 2)
        simp only []
        omega
    · rw [if_neg hs]
      simp

theorem uploadLoop_delays (cfg : Cfg) (w : World) (file tool : String) :
    ∀ fuel attempt delay,
      (uploadLoop cfg w file tool attempt delay fuel).delays =
        (List.range (uploadLoop cfg w file tool attempt delay fuel).delays.length).map
          (fun i => delay * 2 ^ i) := by
  intro fuel
  induction fuel with
  | zero =>
    intro a d
    simp [uploadLoop]
  | succ n ih =>
    intro a d
    simp only [uploadLoop]
    by_cases hs : supportedTool tool
    · rw [if_pos hs]
      by_cases hr : (run_or_echo cfg.DRY_RUN (w.uploadRc file a)
          (uploadCmd tool cfg.UPLOAD_TARGET file)).2 = 0
      · rw [if_pos hr]
        simp
      · rw [if_neg hr]
        simp only [List.length_cons]
        rw [List.range_succ_eq_map]
        simp only [List.map_cons, List.map_map, Function.comp, pow_zero, Nat.mul_one]
        congr 1
        rw [ih (a + 1) (d * 2)]
        simp only [List.length_map, List.length_range]
        apply List.map_congr_left
        intro i _
        show d * 2 * 2 ^ i = d * 2 ^ Nat.succ i
        rw [pow_succ]
        ring
    · rw [if_neg hs]
      simp

theorem chain_geom (d n : Nat) :
    List.Chain' (fun a b => a ≤ b) ((List.range n).map (fun i => d * 2 ^ i)) := by
  apply List.Pairwise.chain'
  rw [List.pairwise_map]
  apply List.Pairwise.imp ?_ (List.pairwise_lt_range n)
  intro a b hab
  exact Nat.mul_le_mul_left d (Nat.pow_le_pow_right (by norm_num) (Nat.le_of_lt hab))

/-- C4: for every configuration, world and file, the upload dispatcher
makes at most `UPLOAD_RETRY` attempts, and its sleep delays are exactly
the doubling sequence starting at 2 time-units (hence non-decreasing). -/
theorem C4_retry_backoff (cfg : Cfg) (w : World) (file : String) :
    (do_upload_one cfg w file).attempts ≤ cfg.UPLOAD_RETRY ∧
    (do_upload_one cfg w file).delays =
      (List.range (do_upload_one cfg w file).delays.length).map (fun i => 2 * 2 ^ i) ∧
    List.Chain' (fun a b => a ≤ b) (do_upload_one cfg w file).delays := by
  rw [do_upload_one]
  by_cases ht : cfg.UPLOAD_TARGET = ""
  · rw [if_pos ht]
    exact ⟨Nat.zero_le _, rfl, List.chain'_nil⟩
  · rw [if_neg ht]
    refine ⟨uploadLoop_attempts_le cfg w file _ _ 1 2, ?_, ?_⟩
    · exact uploadLoop_delays cfg w file _ _ 1 2
    · rw [uploadLoop_delays cfg w file _ _ 1 2]
      exact chain_geom 2 _

/-! ## Lemmas about the headless upload phase (C1, C6, C10) -/

theorem headless_fold (cfg : Cfg) (w : World) :
    ∀ (files : List String) (acc : List Action × String),
      files.foldl (fun acc f =>
        if w.fileExists f || cfg.DRY_RUN then
          (acc.1 ++ (do_upload_one cfg w f).actions,
            if (do_upload_one cfg w f).rc ≠ 0 then "failure" else acc.2)
        else acc) acc =
      (acc.1 ++ (files.filter (fun f => w.fileExists f || cfg.DRY_RUN)).flatMap
          (fun f => (do_upload_one cfg w f).actions),
        if files.any (fun f => (w.fileExists f || cfg.DRY_RUN) &&
            ((do_upload_one cfg w f).rc != 0)) then "failure" else acc.2) := by
  intro files
  induction files with
  | nil =>
    intro acc
    simp
  | cons f rest ih =>
    intro acc
    rw [List.foldl_cons]
    by_cases ha : (w.fileExists f || cfg.DRY_RUN) = true
    · rw [if_pos ha, ih]
      simp only [List.filter_cons, List.any_cons, ha, if_true, Bool.true_and,
        List.flatMap_cons, List.append_assoc]
      by_cases hb : (do_upload_one cfg w f).rc = 0
      · simp [hb]
      · have hb' : ((do_upload_one cfg w f).rc != 0) = true := by simp [hb]
        simp [hb, hb']
    · have ha' : (w.fileExists f || cfg.DRY_RUN) = false := by
        simpa using ha
      rw [if_neg (by simp [ha']), ih]
      simp [List.filter_cons, List.any_cons, ha']

theorem headless_upload_status (cfg : Cfg) (w : World) (files : List String) :
    (headless_upload cfg w files).2 =
      if cfg.UPLOAD_TARGET = "" then "success"
      else if files.any (fun f => (w.fileExists f || cfg.DRY_RUN) &&
          ((do_upload_one cfg w f).rc != 0)) then "failure" else "success" := by
  rw [headless_upload]
  by_cases ht : cfg.UPLOAD_TARGET = ""
  · rw [if_pos ht, if_pos ht]
  · rw [if_neg ht, if_neg ht, headless_fold]

theorem uploadLoop_rc_attempts (cfg : Cfg) (w : World) (file tool : String)
    (hs : supportedTool tool = true) :
    ∀ fuel attempt delay, (uploadLoop cfg w file tool attempt delay fuel).rc ≠ 0 →
      (uploadLoop cfg w file tool attempt delay fuel).attempts = fuel := by
  intro fuel
  induction fuel with
  | zero =>
    intro a d _
    simp [uploadLoop]
  | succ n ih =>
    intro a d hrc
    rw [uploadLoop] at hrc ⊢
    rw [if_pos hs] at hrc ⊢
    by_cases hr : (run_or_echo cfg.DRY_RUN (w.uploadRc file a)
        (uploadCmd tool cfg.UPLOAD_TARGET file)).2 = 0
    · rw [if_pos hr] at hrc
      simp at hrc
    · rw [if_neg hr] at hrc ⊢
      simp only [] at hrc ⊢
      rw [ih (a + 1) (d * 2) hrc]

/-- C1 counterexample: with the unsupported tool `gsutil` configured, the
run-level status is `"failure"` although the sole file never exhausted its
retry budget — zero of the three allowed attempts were made, and every
attempt would have succeeded. -/
theorem C1_counterexample :
    (headless_upload cfgC1 wC1 ["f"]).2 = "failure" ∧
    (do_upload_one cfgC1 wC1 "f").attempts = 0 ∧
    cfgC1.UPLOAD_RETRY = 3 ∧ wC1.uploadRc "f" 1 = 0 := by
  refine ⟨?_, ?_, rfl, rfl⟩ <;> decide

/-- C1 (amended): whenever the effective upload tool is one the dispatcher
supports (always the case for `auto`), the final status is `"failure"` iff
at least one attempted file of `files_to_upload` exhausts its retry budget
(all `UPLOAD_RETRY` attempts made, exit code still nonzero); with no
upload target configured the final status is always `"success"`.  (With an
unsupported explicitly-configured tool, any attempted file yields
`"failure"` immediately, without any upload attempts.) -/
theorem C1_final_status (cfg : Cfg) (w : World) (files : List String)
    (h : supportedTool (effectiveTool cfg w) = true) :
    ((headless_upload cfg w files).2 = "failure" ↔
      (cfg.UPLOAD_TARGET ≠ "" ∧
        files.any (fun f => (w.fileExists f || cfg.DRY_RUN) &&
          ((do_upload_one cfg w f).attempts == cfg.UPLOAD_RETRY) &&
          ((do_upload_one cfg w f).rc != 0)) = true)) ∧
    (cfg.UPLOAD_TARGET = "" → (headless_upload cfg w files).2 = "success") := by
  rw [headless_upload_status]
  by_cases ht : cfg.UPLOAD_TARGET = ""
  · rw [if_pos ht]
    constructor
    · constructor
      · intro he
        exact absurd he (by decide)
      · rintro ⟨hne, _⟩
        exact absurd ht hne
    · intro _
      rfl
  · rw [if_neg ht]
    have hpred : ∀ f, ((w.fileExists f || cfg.DRY_RUN) &&
        ((do_upload_one cfg w f).rc != 0)) =
        ((w.fileExists f || cfg.DRY_RUN) &&
          ((do_upload_one cfg w f).attempts == cfg.UPLOAD_RETRY) &&
          ((do_upload_one cfg w f).rc != 0)) := by
      intro f
      by_cases hb : (do_upload_one cfg w f).rc = 0
      · simp [hb]
      · have hatt : (do_upload_one cfg w f).attempts = cfg.UPLOAD_RETRY := by
          rw [do_upload_one, if_neg ht] at hb ⊢
          exact uploadLoop_rc_attempts cfg w f _ h _ 1 2 hb
        have hb' : ((do_upload_one cfg w f).rc != 0) = true := by simp [hb]
        rw [hatt, hb']
        simp
    constructor
    · by_cases ha : files.any (fun f => (w.fileExists f || cfg.DRY_RUN) &&
          ((do_upload_one cfg w f).rc != 0)) = true
      · rw [if_pos ha]
        constructor
        · intro _
          refine ⟨ht, ?_⟩
          rw [← congrArg files.any (funext hpred)]
          exact ha
        · intro _
          rfl
      · rw [if_neg ha]
        constructor
        · intro he
          exact absurd he (by decide)
        · rintro ⟨_, ha'⟩
          exfalso
          apply ha
          rw [congrArg files.any (funext hpred)]
          exact ha'
    · intro he
      exact absurd he ht

/-- C1 witness: the amended equivalence at a concrete run in which the one
file exhausts its single-attempt retry budget, so the final status is
`"failure"`. -/
theorem C1_witness : (headless_upload cfgC1w wC1w ["f"]).2 = "failure" :=
  (C1_final_status cfgC1w wC1w ["f"] (by decide)).1.mpr ⟨by decide, by decide⟩

/-- C6: for every run reaching the notification point, exactly one
dispatch fires; its event is `on_success` precisely when the aggregate
status is `"success"` and `on_failure` precisely otherwise, and the one
dispatched pair is always either `("on_success", "success")` or
`("on_failure", "failure")` — non-fatal sub-step failures influence it
only through the aggregate upload status. -/
theorem C6_single_dispatch (cfg : Cfg) (w : World) (files : List String) :
    (headless_dispatch cfg w files).length = 1 ∧
    (headless_dispatch cfg w files =
        [("on_success", (headless_upload cfg w files).2)] ↔
      (headless_upload cfg w files).2 = "success") ∧
    (headless_dispatch cfg w files =
        [("on_failure", (headless_upload cfg w files).2)] ↔
      ¬(headless_upload cfg w files).2 = "success") ∧
    (headless_dispatch cfg w files = [("on_success", "success")] ∨
      headless_dispatch cfg w files = [("on_failure", "failure")]) := by
  have hdicho : (headless_upload cfg w files).2 = "success" ∨
      (headless_upload cfg w files).2 = "failure" := by
    rw [headless_upload_status]
    by_cases ht : cfg.UPLOAD_TARGET = ""
    · rw [if_pos ht]
      left
      rfl
    · rw [if_neg ht]
      by_cases ha : files.any (fun f => (w.fileExists f || cfg.DRY_RUN) &&
          ((do_upload_one cfg w f).rc != 0)) = true
      · rw [if_pos ha]
        right
        rfl
      · rw [if_neg ha]
        left
        rfl
  rw [headless_dispatch]
  by_cases h : (headless_upload cfg w files).2 = "success"
  · rw [if_pos h]
    refine ⟨rfl, ⟨fun _ => h, fun _ => rfl⟩, ⟨?_, ?_⟩, Or.inl (by rw [h])⟩
    · intro he
      have := List.head_eq_of_cons_eq he
      simp at this
    · intro hn
      exact absurd h hn
  · rw [if_neg h]
    have hf : (headless_upload cfg w files).2 = "failure" := by
      rcases hdicho with hd | hd
      · exact absurd hd h
      · exact hd
    refine ⟨rfl, ⟨?_, ?_⟩, ⟨fun _ => h, fun _ => rfl⟩, Or.inr (by rw [hf])⟩
    · intro he
      have := List.head_eq_of_cons_eq he
      simp at this
    · intro hs
      exact absurd hs h

/-- C10: with dry-run off, files of `files_to_upload` that do not exist on
disk are skipped silently — the upload phase (its actions and its final
status) is identical to the one run on the existing files only, so a
missing file can never contribute a `"failure"`. -/
theorem C10_missing_files_skipped (cfg : Cfg) (w : World) (files : List String)
    (h : cfg.DRY_RUN = false) :
    headless_upload cfg w files =
      headless_upload cfg w (files.filter (fun f => w.fileExists f)) := by
  rw [headless_upload, headless_upload]
  by_cases ht : cfg.UPLOAD_TARGET = ""
  · rw [if_pos ht, if_pos ht]
  · rw [if_neg ht, if_neg ht, headless_fold, headless_fold, h]
    simp only [Bool.or_false]
    have hfilter : (files.filter (fun f => w.fileExists f)).filter
        (fun f => w.fileExists f) = files.filter (fun f => w.fileExists f) := by
      rw [List.filter_filter]
      apply List.filter_congr
      intro a _
      simp
    have hany : (files.filter (fun f => w.fileExists f)).any
        (fun f => w.fileExists f && ((do_upload_one cfg w f).rc != 0)) =
        files.any (fun f => w.fileExists f && ((do_upload_one cfg w f).rc != 0)) := by
      rw [Bool.eq_iff_iff, List.any_eq_true, List.any_eq_true]
      constructor
      · rintro ⟨f, hf, hp⟩
        exact ⟨f, (List.mem_filter.mp hf).1, hp⟩
      · rintro ⟨f, hf, hp⟩
        refine ⟨f, List.mem_filter.mpr ⟨hf, ?_⟩, hp⟩
        by_contra hex
        simp only [Bool.not_eq_true] at hex
        rw [hex] at hp
        simp at hp
    rw [hfilter, hany]

/-- C10 witness: the skip equality at a concrete run with one existing and
one missing file. -/
theorem C10_witness :
    headless_upload cfgC10 wC10 ["a", "b"] =
      headless_upload cfgC10 wC10 (["a", "b"].filter (fun f => wC10.fileExists f)) :=
  C10_missing_files_skipped cfgC10 wC10 ["a", "b"] rfl

/-! ## Plugin resolution and the notification environment (C5, C7) -/

theorem resolveLoop_shape (fs : FS) (pyexe : String) :
    ∀ cands : List String, (resolveLoop fs pyexe cands).elim True
      (fun r => r.1 = [r.2] ∨ r.1 = [pyexe, r.2]) := by
  intro cands
  induction cands with
  | nil => trivial
  | cons p rest ih =>
    simp only [resolveLoop]
    by_cases h1 : fs.isFile p = true
    · rw [if_pos h1]
      by_cases h2 : fs.isExec p = true
      · rw [if_pos h2]
        exact Or.inl rfl
      · rw [if_neg h2]
        by_cases h3 : (".py".data).isSuffixOf p.data = true
        · rw [if_pos h3]
          exact Or.inr rfl
        · rw [if_neg h3]
          exact ih
    · rw [if_neg h1]
      exact ih

/-- C5: the plugin process environment carries the full notification
payload under its twelve named keys — event, summary path, primary archive
path, newline-joined file list, output directory, base name, status, log
path, notify-config string, upload target, dry-run flag as "0"/"1" and the
human-readable total size string — and a resolved plugin command line is
only the script path (or interpreter plus path), so the payload travels in
the environment, never as positional arguments. -/
theorem C5_plugin_env (base : String → Option String) (event sj primary : String)
    (files : List String) (outDir bas status logFile notifyConfig target : String)
    (dry : Bool) (hts : List String → String) (fs : FS) (pyexe tgt dir : String) :
    run_plugins_env base event sj primary files outDir bas status logFile
        notifyConfig target dry hts "EVENT" = some event ∧
    run_plugins_env base event sj primary files outDir bas status logFile
        notifyConfig target dry hts "SUMMARY_FILE" = some sj ∧
    run_plugins_env base event sj primary files outDir bas status logFile
        notifyConfig target dry hts "ARCHIVE_PATH" = some primary ∧
    run_plugins_env base event sj primary files outDir bas status logFile
        notifyConfig target dry hts "FILES" = some (String.intercalate "\n" files) ∧
    run_plugins_env base event sj primary files outDir bas status logFile
        notifyConfig target dry hts "OUTPUT_DIR" = some outDir ∧
    run_plugins_env base event sj primary files outDir bas status logFile
        notifyConfig target dry hts "BASE_NAME" = some bas ∧
    run_plugins_env base event sj primary files outDir bas status logFile
        notifyConfig target dry hts "STATUS" = some status ∧
    run_plugins_env base event sj primary files outDir bas status logFile
        notifyConfig target dry hts "LOG_FILE" = some logFile ∧
    run_plugins_env base event sj primary files outDir bas status logFile
        notifyConfig target dry hts "NOTIFY_CONFIG" = some notifyConfig ∧
    run_plugins_env base event sj primary files outDir bas status logFile
        notifyConfig target dry hts "UPLOAD_TARGET" = some target ∧
    run_plugins_env base event sj primary files outDir bas status logFile
        notifyConfig target dry hts "DRY_RUN" = some (if dry then "1" else "0") ∧
    run_plugins_env base event sj primary files outDir bas status logFile
        notifyConfig target dry hts "TOTAL_SIZE" = some (if dry then "(estimasi)" else hts files) ∧
    (resolve_plugin fs pyexe tgt dir).elim True
      (fun r => r.1 = [r.2] ∨ r.1 = [pyexe, r.2]) := by
  refine ⟨rfl, rfl, rfl, rfl, rfl, rfl, rfl, rfl, rfl, rfl, rfl, rfl,
    resolveLoop_shape fs pyexe _⟩

theorem resolveLoop_eq_findSome (fs : FS) (pyexe : String) :
    ∀ cands : List String,
      resolveLoop fs pyexe cands =
        cands.findSome? (fun p =>
          if fs.isFile p && fs.isExec p then some ([p], p)
          else if fs.isFile p && (".py".data).isSuffixOf p.data then some ([pyexe, p], p)
          else none) := by
  intro cands
  induction cands with
  | nil => rfl
  | cons p rest ih =>
    simp only [resolveLoop, List.findSome?_cons]
    by_cases h1 : fs.isFile p = true
    · rw [if_pos h1]
      by_cases h2 : fs.isExec p = true
      · rw [if_pos h2]
        simp [h1, h2]
      · rw [if_neg h2]
        have h2' : fs.isExec p = false := by simpa using h2
        by_cases h3 : (".py".data).isSuffixOf p.data = true
        · rw [if_pos h3]
          simp [h1, h2', h3]
        · rw [if_neg h3]
          have h3' : (".py".data).isSuffixOf p.data = false :=
            Bool.not_eq_true _ ▸ eq_false_of_ne_true h3
          simp [h1, h2', h3', ih]
    · rw [if_neg h1]
      have h1' : fs.isFile p = false := by simpa using h1
      simp [h1', ih]

/-- C7 (amended): a notify target that is absolute or contains a path
separator is resolved against the literal path only, any other target only
under the plugins directory; in both cases the extensions `""`, `".py"`,
`".sh"` are probed in order, the first existing executable candidate wins,
an existing non-executable `.py` candidate is invoked via the Python
interpreter, any other existing non-executable candidate is skipped, and
an unresolvable target is logged while the dispatch loop continues (one
step per target, never fatal). -/
theorem C7_plugin_resolution (fs : FS) (pyexe tgt dir : String) (dry : Bool)
    (targets : List String) :
    resolve_plugin fs pyexe tgt dir = resolve_plugin_spec fs pyexe tgt dir ∧
    (run_plugins_steps fs pyexe dir dry targets).length = targets.length := by
  constructor
  · rw [resolve_plugin, resolve_plugin_spec]
    exact resolveLoop_eq_findSome fs pyexe _
  · rw [run_plugins_steps, List.length_map]

/-- C7 counterexample: for the bare target name `foo`, the literal path
`foo` exists and is executable, yet resolution fails — the code never
tries the literal path for a name without a path separator, contradicting
"tries, in order, the literal path and then the same name under the
plugins directory". -/
theorem C7_counterexample :
    fsC7.isFile "foo" = true ∧ fsC7.isExec "foo" = true ∧
    resolve_plugin fsC7 "python3" "foo" "./plugins.d" = none := by
  refine ⟨rfl, rfl, ?_⟩
  decide

/-! ## Lemmas about the config loader and the double load (C9) -/

theorem load_config_file_excludes (ls : List (List Char)) :
    ∀ c : Config, (load_config_file c ls).excludes = c.excludes ++ excludesOf ls := by
  induction ls with
  | nil =>
    intro c
    simp [load_config_file, excludesOf]
  | cons l rest ih =>
    intro c
    rw [load_config_file, List.foldl_cons]
    rw [show List.foldl (fun a l => applyEff a (lineEff l))
      (applyEff c (lineEff l)) rest = load_config_file (applyEff c (lineEff l)) rest
      from rfl]
    rw [ih]
    simp only [excludesOf, List.map_cons, List.flatten_cons]
    cases he : lineEff l <;>
      simp [applyEff, he, excludesOf, List.append_assoc]

theorem load_config_file_sources (ls : List (List Char)) :
    ∀ c : Config, (load_config_file c ls).sources = c.sources ++ sourcesOf ls := by
  induction ls with
  | nil =>
    intro c
    simp [load_config_file, sourcesOf]
  | cons l rest ih =>
    intro c
    rw [load_config_file, List.foldl_cons]
    rw [show List.foldl (fun a l => applyEff a (lineEff l))
      (applyEff c (lineEff l)) rest = load_config_file (applyEff c (lineEff l)) rest
      from rfl]
    rw [ih]
    simp only [sourcesOf, List.map_cons, List.flatten_cons]
    cases he : lineEff l <;>
      simp [applyEff, he, sourcesOf, List.append_assoc]

theorem load_config_file_notify (ls : List (List Char)) :
    ∀ c : Config, (load_config_file c ls).notifyTargets = c.notifyTargets ++ notifyOf ls := by
  induction ls with
  | nil =>
    intro c
    simp [load_config_file, notifyOf]
  | cons l rest ih =>
    intro c
    rw [load_config_file, List.foldl_cons]
    rw [show List.foldl (fun a l => applyEff a (lineEff l))
      (applyEff c (lineEff l)) rest = load_config_file (applyEff c (lineEff l)) rest
      from rfl]
    rw [ih]
    simp only [notifyOf, List.map_cons, List.flatten_cons]
    cases he : lineEff l <;>
      simp [applyEff, he, notifyOf, List.append_assoc]

theorem load_config_file_strs (ls : List (List Char)) :
    ∀ c : Config, (load_config_file c ls).strs =
      ls.foldl (fun s l => strUpd (lineEff l) s) c.strs := by
  induction ls with
  | nil =>
    intro c
    rfl
  | cons l rest ih =>
    intro c
    rw [load_config_file, List.foldl_cons, List.foldl_cons]
    rw [show List.foldl (fun a l => applyEff a (lineEff l))
      (applyEff c (lineEff l)) rest = load_config_file (applyEff c (lineEff l)) rest
      from rfl]
    rw [ih]
    cases he : lineEff l <;> simp [applyEff, strUpd]

theorem load_config_file_bools (ls : List (List Char)) :
    ∀ c : Config, (load_config_file c ls).bools =
      ls.foldl (fun s l => boolUpd (lineEff l) s) c.bools := by
  induction ls with
  | nil =>
    intro c
    rfl
  | cons l rest ih =>
    intro c
    rw [load_config_file, List.foldl_cons, List.foldl_cons]
    rw [show List.foldl (fun a l => applyEff a (lineEff l))
      (applyEff c (lineEff l)) rest = load_config_file (applyEff c (lineEff l)) rest
      from rfl]
    rw [ih]
    cases he : lineEff l <;> simp [applyEff, boolUpd]

theorem strs_foldl_eq_lastStr (ls : List (List Char)) :
    ∀ (s : String → String) (k : String),
      ls.foldl (fun s l => strUpd (lineEff l) s) s k = (lastStr ls k).getD (s k) := by
  induction ls with
  | nil =>
    intro s k
    rfl
  | cons l rest ih =>
    intro s k
    rw [List.foldl_cons, ih]
    show (lastStr rest k).getD (strUpd (lineEff l) s k) =
      (lastStr (l :: rest) k).getD (s k)
    rw [lastStr]
    cases hrest : lastStr rest k with
    | some v => rfl
    | none =>
      cases he : lineEff l <;> simp only [strUpd, Option.getD_none]
      case setStr q v =>
        by_cases hq : q = k
        · subst hq
          simp
        · rw [if_neg hq, if_neg (fun hk => hq hk.symm)]
          rfl

theorem bools_foldl_eq_lastBool (ls : List (List Char)) :
    ∀ (s : String → Bool) (k : String),
      ls.foldl (fun s l => boolUpd (lineEff l) s) s k = (lastBool ls k).getD (s k) := by
  induction ls with
  | nil =>
    intro s k
    rfl
  | cons l rest ih =>
    intro s k
    rw [List.foldl_cons, ih]
    show (lastBool rest k).getD (boolUpd (lineEff l) s k) =
      (lastBool (l :: rest) k).getD (s k)
    rw [lastBool]
    cases hrest : lastBool rest k with
    | some v => rfl
    | none =>
      cases he : lineEff l <;> simp only [boolUpd, Option.getD_none]
      case setBool q v =>
        by_cases hq : q = k
        · subst hq
          simp
        · rw [if_neg hq, if_neg (fun hk => hq hk.symm)]
          rfl

/-- C9: when a config file is supplied on the command line it is parsed
once in `main` and again in `apply_args`, so after the double load every
accumulating-list entry of the file (EXCLUDES, SOURCES, NOTIFY) appears
twice in the effective lists, while string-valued and boolean-valued keys

end up exactly as a single load would leave them. -/

theorem C9_double_config_load (c : Config) (ls : List (List Char)) :
    (main_and_apply_config c (some ls)).strs = (load_config_file c ls).strs ∧
    (main_and_apply_config c (some ls)).bools = (load_config_file c ls).bools ∧
    (main_and_apply_config c (some ls)).excludes =
      c.excludes ++ excludesOf ls ++ excludesOf ls ∧
    (main_and_apply_config c (some ls)).sources =
      c.sources ++ sourcesOf ls ++ sourcesOf ls ∧
    (main_and_apply_config c (some ls)).notifyTargets =
      c.notifyTargets ++ notifyOf ls ++ notifyOf ls := by
  have hmain : main_and_apply_config c (some ls) =
      load_config_file (load_config_file c ls) ls := rfl
  rw [hmain]
  refine ⟨?_, ?_, ?_, ?_, ?_⟩
  · rw [load_config_file_strs, load_config_file_strs]
    funext k
    rw [strs_foldl_eq_lastStr, strs_foldl_eq_lastStr]
    cases h : lastStr ls k with
    | some v => rfl
    | none => simp only [Option.getD_none]
  · rw [load_config_file_bools, load_config_file_bools]
    funext k
    rw [bools_foldl_eq_lastBool, bools_foldl_eq_lastBool]
    cases h : lastBool ls k with
    | some v => rfl
    | none => simp only [Option.getD_none]
  · rw [load_config_file_excludes, load_config_file_excludes]
  · rw [load_config_file_sources, load_config_file_sources]
  · rw [load_config_file_notify, load_config_file_notify]

/-! ## Dry-run effect analysis (C8) -/

theorem all_imp {l : List Action} {p q : Action → Bool}
    (hpq : ∀ a, p a = true → q a = true) (hl : l.all p = true) : l.all q = true := by
  rw [List.all_eq_true] at hl ⊢
  exact fun a ha => hpq a (hl a ha)

theorem log_dryAllowed (cfg : Cfg) (a : Action) (h : a.isLog = true) :
    dryAllowed cfg a = true := by
  rw [dryAllowed, h]
  rfl

theorem log_or_input_dryAllowed (cfg : Cfg) (a : Action)
    (h : (a.isLog || a.isReadInput) = true) : dryAllowed cfg a = true := by
  rw [dryAllowed]
  rcases Bool.or_eq_true _ _ |>.mp h with h | h <;> rw [h] <;> simp

theorem run_or_echo_dry (rc : Nat) (cmd : List String) :
    ((run_or_echo true rc cmd).1).all Action.isLog = true := rfl

theorem archive_stage_dry (cfg : Cfg) (w : World) (paths patterns : List String)
    (h : cfg.DRY_RUN = true) :
    ((archive_stage cfg w paths patterns).1).all
      (fun a => a.isLog || a.isReadInput) = true := by
  rw [archive_stage]
  split_ifs <;>
    simp_all [run_or_echo, sevenPwArgs, Action.isLog, Action.isReadInput] <;>
    split_ifs <;>
    simp_all [Action.isLog, Action.isReadInput]

theorem gpg_stage_dry (cfg : Cfg) (w : World) (tmp : String)
    (h : cfg.DRY_RUN = true) :
    ((gpg_stage cfg w tmp).1).all Action.isLog = true := by
  rw [gpg_stage]
  split_ifs <;> simp_all [run_or_echo, Action.isLog]

theorem split_stage_dry (splitSize : String) (keep rm rok : Bool)
    (bytes : List Nat) (primary : String) :
    ((split_stage splitSize true keep rm rok bytes primary).1).all Action.isLog = true := by
  rw [split_stage]
  by_cases he : splitSize = ""
  · rw [if_pos he]
    rfl
  · rw [if_neg he]
    cases hp : parse_split_size splitSize with
    | none => rfl
    | some b =>
      by_cases hb : b = 0
      · subst hb
        rfl
      · simp only [if_neg hb]
        simp [Action.isLog]

theorem checksum_stage_dry (cfg : Cfg) (w : World) (files : List String)
    (h : cfg.DRY_RUN = true) :
    (checksum_stage cfg w files).all Action.isLog = true := by
  rw [checksum_stage]
  by_cases hc : cfg.MAKE_CHECKSUM = true
  · rw [hc, h]
    simp [List.all_eq_true, Action.isLog]
  · have hc' : cfg.MAKE_CHECKSUM = false := by simpa using hc
    rw [hc']
    rfl

theorem uploadLoop_dry (cfg : Cfg) (w : World) (file tool : String)
    (h : cfg.DRY_RUN = true) (fuel attempt delay : Nat) :
    ((uploadLoop cfg w file tool attempt delay fuel).actions).all Action.isLog = true := by
  cases fuel with
  | zero => rfl
  | succ n =>
    simp only [uploadLoop, run_or_echo, h, if_true]
    by_cases hs : supportedTool tool = true
    · rw [if_pos hs]
      simp only [if_pos rfl]
      by_cases hr : cfg.AFTER_UPLOAD_RM = true
      · simp [hr, h, run_or_echo, Action.isLog, Bool.not_true]
      · have hr' : cfg.AFTER_UPLOAD_RM = false := by simpa using hr
        simp [hr', h, run_or_echo, Action.isLog, Bool.not_true]
    · rw [if_neg hs]
      rfl

theorem do_upload_one_dry (cfg : Cfg) (w : World) (file : String)
    (h : cfg.DRY_RUN = true) :
    ((do_upload_one cfg w file).actions).all Action.isLog = true := by
  rw [do_upload_one]
  by_cases ht : cfg.UPLOAD_TARGET = ""
  · rw [if_pos ht]
    rfl
  · rw [if_neg ht]
    simp only [List.all_cons, Bool.and_eq_true]
    exact ⟨rfl, uploadLoop_dry cfg w file _ h _ 1 2⟩

theorem headless_upload_dry (cfg : Cfg) (w : World) (files : List String)
    (h : cfg.DRY_RUN = true) :
    ((headless_upload cfg w files).1).all Action.isLog = true := by
  rw [headless_upload]
  by_cases ht : cfg.UPLOAD_TARGET = ""
  · rw [if_pos ht]
    rfl
  · rw [if_neg ht, headless_fold]
    simp only [List.nil_append]
    rw [List.all_eq_true]
    intro a ha
    obtain ⟨f, _, haf⟩ := List.mem_flatMap.mp ha
    have := do_upload_one_dry cfg w f h
    rw [List.all_eq_true] at this
    exact this a haf

theorem make_archive_dry (cfg : Cfg) (w : World) (paths : List String)
    (h : cfg.DRY_RUN = true) :
    ((make_archive cfg w paths).1).all (dryAllowed cfg) = true := by
  rw [make_archive]
  by_cases hp : paths = []
  · rw [if_pos hp]
    rfl
  · rw [if_neg hp]
    have ha0 : ([Action.mkdir cfg.OUT_DIR,
        Action.log ("Log: " ++ (cfg.OUT_DIR ++ "/" ++ cfg.BASE ++ ".log"))]).all
        (dryAllowed cfg) = true := by
      simp [dryAllowed, Action.isLog]
    have haDry : ∀ al : List Action,
        (al = (if cfg.DRY_RUN then
          [Action.log "DRY-RUN MODE - tidak ada perubahan nyata.",
            Action.log ("Format: " ++ cfg.ARCHIVE_FORMAT),
            Action.log ("Output dir: " ++ cfg.OUT_DIR ++ "  Base: " ++ cfg.BASE),
            Action.log ("Split: " ++ cfg.SPLIT_SIZE ++ "  Upload: " ++ cfg.UPLOAD_TARGET),
            Action.log ("Excludes: " ++ toString (collect_exclude_patterns cfg).length ++ " pola")] ++
            paths.flatMap (fun p => [Action.readSize p, Action.log ("- " ++ baseName p)])
          else [])) → al.all (dryAllowed cfg) = true := by
      intro al hal
      subst hal
      rw [h, if_pos rfl, List.all_append, Bool.and_eq_true]
      constructor
      · simp [dryAllowed, Action.isLog]
      · rw [List.all_eq_true]
        intro a ha
        obtain ⟨p, _, hap⟩ := List.mem_flatMap.mp ha
        rcases List.mem_cons.mp hap with hap | hap
        · rw [hap]
          simp [dryAllowed, Action.isReadSize]
        · rcases List.mem_cons.mp hap with hap | hap
          · rw [hap]
            simp [dryAllowed, Action.isLog]
          · exact absurd hap (List.not_mem_nil a)
    have har : ((archive_stage cfg w paths (collect_exclude_patterns cfg)).1).all
        (dryAllowed cfg) = true :=
      all_imp (log_or_input_dryAllowed cfg)
        (archive_stage_dry cfg w paths (collect_exclude_patterns cfg) h)
    cases hare : (archive_stage cfg w paths (collect_exclude_patterns cfg)).2 with
    | error e =>
      simp only [hare]
      simp only [List.all_append, Bool.and_eq_true]
      exact ⟨⟨ha0, haDry _ rfl⟩, har⟩
    | ok tmp =>
      have hge : ((gpg_stage cfg w tmp).1).all (dryAllowed cfg) = true :=
        all_imp (log_dryAllowed cfg) (gpg_stage_dry cfg w tmp h)
      cases hgee : (gpg_stage cfg w tmp).2 with
      | error e =>
        simp only [hare, hgee]
        simp only [List.all_append, Bool.and_eq_true]
        exact ⟨⟨⟨ha0, haDry _ rfl⟩, har⟩, hge⟩
      | ok primary =>
        simp only [hare, hgee]
        have hsp : ((split_stage cfg.SPLIT_SIZE cfg.DRY_RUN cfg.KEEP_AFTER_SPLIT
            cfg.RM_AFTER_SPLIT (w.removeOk primary) (w.fileBytes primary) primary).1).all
            (dryAllowed cfg) = true := by
          rw [h]
          exact all_imp (log_dryAllowed cfg)
            (split_stage_dry cfg.SPLIT_SIZE cfg.KEEP_AFTER_SPLIT cfg.RM_AFTER_SPLIT
              (w.removeOk primary) (w.fileBytes primary) primary)
        have hck : (checksum_stage cfg w (split_stage cfg.SPLIT_SIZE cfg.DRY_RUN
            cfg.KEEP_AFTER_SPLIT cfg.RM_AFTER_SPLIT (w.removeOk primary)
            (w.fileBytes primary) primary).2).all (dryAllowed cfg) = true := by
          exact all_imp (log_dryAllowed cfg) (checksum_stage_dry cfg w _ h)
        have hsm : ((summary_stage cfg).1).all (dryAllowed cfg) = true := by
          rw [summary_stage]
          by_cases hms : cfg.MAKE_SUMMARY = true
          · rw [hms]
            simp [dryAllowed, hms, Action.isLog, Action.isReadSize, Action.isReadInput]
          · have hms' : cfg.MAKE_SUMMARY = false := by simpa using hms
            rw [hms']
            rfl
        simp only [List.all_append, Bool.and_eq_true]
        exact ⟨⟨⟨⟨⟨⟨ha0, haDry _ rfl⟩, har⟩, hge⟩, hsp⟩, hck⟩, hsm⟩

/-- C8 (amended): in dry-run mode the archive, encrypt, split, checksum
and upload stages perform only logging, read-only `du` size probes and
interactive prompts; however the output directory is still created
unconditionally, and with the summary stage enabled the summary directory
is still created and the summary JSON file is still written. -/
theorem C8_dry_run_effects (cfg : Cfg) (w : World) (paths files : List String)
    (h : cfg.DRY_RUN = true) :
    ((make_archive cfg w paths).1 ++ (headless_upload cfg w files).1).all
      (dryAllowed cfg) = true := by
  rw [List.all_append, Bool.and_eq_true]
  exact ⟨make_archive_dry cfg w paths h,
    all_imp (log_dryAllowed cfg) (headless_upload_dry cfg w files h)⟩

/-- C8 counterexample: a dry run with the summary stage enabled still
writes the summary JSON file — a filesystem mutation — so "zero filesystem
mutations in every stage" fails for the summary stage. -/
theorem C8_counterexample :
    cfgC8.DRY_RUN = true ∧
    Action.writeFile "o/b.summary.json" ∈ (make_archive cfgC8 wAll ["d"]).1 := by
  refine ⟨rfl, ?_⟩
  decide

/-- C8 witness: the amended dry-run frame property evaluated on a concrete
dry run. -/
theorem C8_witness :
    cfgC8w.DRY_RUN = true ∧
    ((make_archive cfgC8w wAll ["d"]).1 ++ (headless_upload cfgC8w wAll []).1).all
      (dryAllowed cfgC8w) = true :=
  ⟨rfl, C8_dry_run_effects cfgC8w wAll ["d"] [] rfl⟩

end Backup
